import Mathlib

/-!
Verification development for the "primordial soup" artificial-life
simulation engine (`src/main.ts` / `src/world.ts`).

Modelling conventions:
* JavaScript numbers are modelled by exact rationals `ℚ`; `Math.sqrt` is
  modelled by `Rat.sqrt` (exact on squares of rationals, and all proofs
  below rely only on bounds of the square root, never on the value of an
  irrational square root).
* Every call to `Math.random()` becomes an explicit input ("tape"); a draw
  of a random angle `θ` used only through `cos θ`/`sin θ` is modelled by
  providing the pair `(cos θ, sin θ)` directly.
* JavaScript object identity (`!==`) is modelled by an `ident : ℕ` field;
  the world allocates fresh identifiers from a counter `nextIdent`.
* Purely cosmetic state that no simulation logic reads (trails, particles,
  canvas drawing, the wall-clock `generationTime` statistic, DOM wiring) is
  omitted.
-/

namespace Primordial

/-- Model of `Math.sqrt` on exact rationals. -/
def sqrtQ (q : ℚ) : ℚ := Rat.sqrt q

/-- `clamp` as used at offspring creation: `Math.max(lo, Math.min(hi, v))`. -/
def clampQ (lo hi v : ℚ) : ℚ := max lo (min hi v)

/-- The heritable trait vector (interface `DNA`). -/
structure DNA where
  speed : ℚ
  efficiency : ℚ
  aggression : ℚ
  size : ℚ
  reproductionThreshold : ℚ
  lifespan : ℚ
  socialness : ℚ
deriving DecidableEq, Repr

/-- The allowed (post-clamp) range of every trait, from the clamping block
of `Organism.reproduce`. -/
def dnaInRange (d : DNA) : Prop :=
  1/5 ≤ d.speed ∧ d.speed ≤ 2 ∧
  1/5 ≤ d.efficiency ∧ d.efficiency ≤ 2 ∧
  0 ≤ d.aggression ∧ d.aggression ≤ 1 ∧
  1/2 ≤ d.size ∧ d.size ≤ 3/2 ∧
  40 ≤ d.reproductionThreshold ∧ d.reproductionThreshold ≤ 120 ∧
  1000 ≤ d.lifespan ∧ d.lifespan ≤ 6000 ∧
  0 ≤ d.socialness ∧ d.socialness ≤ 1

instance (d : DNA) : Decidable (dnaInRange d) := by
  unfold dnaInRange; infer_instance

/-- The clamping block at the end of `Organism.reproduce`. -/
def clampDNA (d : DNA) : DNA where
  speed := clampQ (1/5) 2 d.speed
  efficiency := clampQ (1/5) 2 d.efficiency
  aggression := clampQ 0 1 d.aggression
  size := clampQ (1/2) (3/2) d.size
  reproductionThreshold := clampQ 40 120 d.reproductionThreshold
  lifespan := clampQ 1000 6000 d.lifespan
  socialness := clampQ 0 1 d.socialness

/-- `Organism.generateRandomDNA`: each trait is an affine function of its
own independent uniform draw in `[0,1)`. -/
def generateRandomDNA (r1 r2 r3 r4 r5 r6 r7 : ℚ) : DNA where
  speed := 1/2 + r1 * 1
  efficiency := 1/2 + r2 * 1
  aggression := r3
  size := 4/5 + r4 * (2/5)
  reproductionThreshold := 60 + r5 * 40
  lifespan := 1500 + r6 * 3000
  socialness := r7

inductive Species where
  | herbivore
  | carnivore
  | omnivore
deriving DecidableEq, Repr

/-- The `Organism` entity.  `ident` models JavaScript reference identity
(see file header); the cosmetic `trails` array is omitted. -/
structure Organism where
  ident : ℕ
  x : ℚ
  y : ℚ
  dx : ℚ
  dy : ℚ
  energy : ℚ
  maxEnergy : ℚ
  age : ℕ
  dna : DNA
  species : Species
  targetX : Option ℚ
  targetY : Option ℚ
  reproductionCooldown : ℕ
deriving DecidableEq, Repr

/-- The `Organism` constructor (`new Organism(x, y, species, dna)` with the
DNA provided; `v1 v2` are the two `Math.random()` draws for the initial
velocity). -/
def Organism.make (id : ℕ) (x y : ℚ) (sp : Species) (dna : DNA)
    (v1 v2 : ℚ) : Organism where
  ident := id
  x := x
  y := y
  dx := (v1 - 1/2) * 4 * dna.speed
  dy := (v2 - 1/2) * 4 * dna.speed
  energy := (80 + dna.size * 40) * (4/5)
  maxEnergy := 80 + dna.size * 40
  age := 0
  dna := dna
  species := sp
  targetX := none
  targetY := none
  reproductionCooldown := 0

/-- `Organism.getRadius`. -/
def Organism.getRadius (o : Organism) : ℚ :=
  max 3 ((4 + o.dna.size * 4) * sqrtQ (o.energy / o.maxEnergy))

/-- `Organism.distanceTo`. -/
def Organism.distanceTo (o : Organism) (x y : ℚ) : ℚ :=
  sqrtQ ((o.x - x) * (o.x - x) + (o.y - y) * (o.y - y))

/-- `Organism.canReproduce`. -/
def Organism.canReproduce (o : Organism) : Prop :=
  o.dna.reproductionThreshold < o.energy ∧ o.reproductionCooldown = 0 ∧ 200 < o.age

instance (o : Organism) : Decidable o.canReproduce := by
  unfold Organism.canReproduce; infer_instance

/-- `Organism.isDead`. -/
def Organism.isDead (o : Organism) : Prop :=
  o.energy ≤ 0 ∨ o.dna.lifespan < (o.age : ℚ)

instance (o : Organism) : Decidable o.isDead := by
  unfold Organism.isDead; infer_instance

/-- The random draws consumed by one call to `Organism.reproduce`:
seven trait perturbations, the spawn direction (as cosine/sine of the
random angle), and the two velocity draws of the child's constructor. -/
structure ReproTape where
  p1 : ℚ
  p2 : ℚ
  p3 : ℚ
  p4 : ℚ
  p5 : ℚ
  p6 : ℚ
  p7 : ℚ
  dirC : ℚ
  dirS : ℚ
  v1 : ℚ
  v2 : ℚ
deriving Repr

/-- `Organism.reproduce`: the parent pays the energy cost and starts the
cooldown, the child DNA is crossover (with a partner) or mutation (without)
followed by clamping, and the child spawns on the circle of radius
`parent.getRadius() + 10`.  Returns `(mutated parent, child)`. -/
def Organism.reproduce (o : Organism) (partner : Option Organism)
    (t : ReproTape) (childId : ℕ) : Organism × Organism :=
  let o' : Organism :=
    { o with
      energy := o.energy - o.dna.reproductionThreshold * (3/5)
      reproductionCooldown := 300 }
  let raw : DNA :=
    match partner with
    | some p =>
      { speed := (o.dna.speed + p.dna.speed) / 2 + (t.p1 - 1/2) * (1/5)
        efficiency := (o.dna.efficiency + p.dna.efficiency) / 2 + (t.p2 - 1/2) * (1/5)
        aggression := (o.dna.aggression + p.dna.aggression) / 2 + (t.p3 - 1/2) * (1/5)
        size := (o.dna.size + p.dna.size) / 2 + (t.p4 - 1/2) * (1/10)
        reproductionThreshold :=
          (o.dna.reproductionThreshold + p.dna.reproductionThreshold) / 2 + (t.p5 - 1/2) * 10
        lifespan := (o.dna.lifespan + p.dna.lifespan) / 2 + (t.p6 - 1/2) * 500
        socialness := (o.dna.socialness + p.dna.socialness) / 2 + (t.p7 - 1/2) * (1/5) }
    | none =>
      { speed := o.dna.speed + (t.p1 - 1/2) * (1/10)
        efficiency := o.dna.efficiency + (t.p2 - 1/2) * (1/10)
        aggression := o.dna.aggression + (t.p3 - 1/2) * (1/10)
        size := o.dna.size + (t.p4 - 1/2) * (1/20)
        reproductionThreshold := o.dna.reproductionThreshold + (t.p5 - 1/2) * 5
        lifespan := o.dna.lifespan + (t.p6 - 1/2) * 200
        socialness := o.dna.socialness + (t.p7 - 1/2) * (1/10) }
  let childDNA := clampDNA raw
  let dist := o.getRadius + 10
  (o', Organism.make childId (o.x + t.dirC * dist) (o.y + t.dirS * dist) o.species childDNA t.v1 t.v2)

/-- `Food`; `radius` and `energy` are fixed at creation. -/
structure Food where
  x : ℚ
  y : ℚ
  radius : ℚ
  energy : ℚ
deriving DecidableEq, Repr

/-- The `Food` constructor; `r` is the `Math.random()` draw for the energy
content. -/
def Food.make (x y r : ℚ) : Food where
  x := x
  y := y
  radius := 2 + (25 + r * 15) / 40 * 3
  energy := 25 + r * 15

structure Obstacle where
  x : ℚ
  y : ℚ
  width : ℚ
  height : ℚ
deriving DecidableEq, Repr

/-- `Organism.isCollidingWith` applied to a food item.  In the source the
collision partner's radius is read as `other.radius || 3`, so a zero radius
falls back to `3`. -/
def Organism.collidesFood (o : Organism) (f : Food) : Prop :=
  o.distanceTo f.x f.y < o.getRadius + (if f.radius = 0 then 3 else f.radius)

instance (o : Organism) (f : Food) : Decidable (o.collidesFood f) := by
  unfold Organism.collidesFood; infer_instance

/-- `Organism.isCollidingWith` applied to another organism.  `Organism` has
no `radius` *field* (only the `getRadius()` method), so `other.radius || 3`
evaluates to the constant `3` in the source. -/
def Organism.collidesOrg (o : Organism) (p : Organism) : Prop :=
  o.distanceTo p.x p.y < o.getRadius + 3

instance (o p : Organism) : Decidable (o.collidesOrg p) := by
  unfold Organism.collidesOrg; infer_instance

/-- `Organism.isCollidingWithObstacle`. -/
def Organism.isCollidingWithObstacle (o : Organism) (ob : Obstacle) : Prop :=
  ob.x < o.x + o.getRadius ∧ o.x - o.getRadius < ob.x + ob.width ∧
  ob.y < o.y + o.getRadius ∧ o.y - o.getRadius < ob.y + ob.height

instance (o : Organism) (ob : Obstacle) : Decidable (o.isCollidingWithObstacle ob) := by
  unfold Organism.isCollidingWithObstacle; infer_instance

/-- `Organism.findNearest` over a list of points.  The source initialises
with `targets[0]` and then scans the whole list with a strict comparison
(so revisiting `targets[0]` is a no-op and ties keep the earlier point). -/
def Organism.findNearest (o : Organism) (ts : List (ℚ × ℚ)) : Option (ℚ × ℚ) :=
  match ts with
  | [] => none
  | t :: rest =>
    some (rest.foldl
      (fun best tgt =>
        if o.distanceTo tgt.1 tgt.2 < o.distanceTo best.1 best.2 then tgt else best)
      t)

/-- Foraging block of `Organism.updateAI`: herbivores/omnivores below 70%
energy target the nearest food. -/
def Organism.forage (o : Organism) (food : List Food) : Organism :=
  if (o.species = Species.herbivore ∨ o.species = Species.omnivore) ∧
      o.energy < o.maxEnergy * (7/10) ∧ food ≠ [] then
    match o.findNearest (food.map fun f => (f.x, f.y)) with
    | some t => { o with targetX := some t.1, targetY := some t.2 }
    | none => o
  else o

/-- The prey filter used for hunting-target acquisition in
`Organism.updateAI` (any herbivore, or any omnivore of strictly smaller
radius). -/
def Organism.huntPreyOk (o p : Organism) : Prop :=
  p.ident ≠ o.ident ∧
    (p.species = Species.herbivore ∨
      (p.species = Species.omnivore ∧ p.getRadius < o.getRadius))

instance (o p : Organism) : Decidable (o.huntPreyOk p) := by
  unfold Organism.huntPreyOk; infer_instance

/-- The species/aggression/hunger guard for hunting-target acquisition in
`Organism.updateAI` (threshold `0.5` on aggression). -/
def Organism.huntGuard (o : Organism) : Prop :=
  (o.species = Species.carnivore ∨
      (o.species = Species.omnivore ∧ 1/2 < o.dna.aggression)) ∧
    o.energy < o.maxEnergy * (3/5)

instance (o : Organism) : Decidable o.huntGuard := by
  unfold Organism.huntGuard; infer_instance

/-- Hunting block of `Organism.updateAI`. -/
def Organism.hunt (o : Organism) (organisms : List Organism) : Organism :=
  if o.huntGuard then
    let prey := organisms.filter fun p => decide (o.huntPreyOk p)
    if prey ≠ [] then
      match o.findNearest (prey.map fun p => (p.x, p.y)) with
      | some t => { o with targetX := some t.1, targetY := some t.2 }
      | none => o
    else o
  else o

/-- `Organism.applyFlocking`: cohesion towards the centroid of same-species
neighbours within 80 units, then inverse-distance separation from
neighbours closer than 30 units. -/
def Organism.applyFlocking (o : Organism) (organisms : List Organism) : Organism :=
  let neighbors := organisms.filter fun p =>
    decide (p.ident ≠ o.ident ∧ p.species = o.species ∧ o.distanceTo p.x p.y < 80)
  if neighbors = [] then o
  else
    let n : ℚ := neighbors.length
    let cx := (neighbors.map Organism.x).sum / n
    let cy := (neighbors.map Organism.y).sum / n
    let cf := (1/500) * o.dna.socialness
    let o1 := { o with dx := o.dx + (cx - o.x) * cf, dy := o.dy + (cy - o.y) * cf }
    neighbors.foldl
      (fun acc p =>
        let d := acc.distanceTo p.x p.y
        if d < 30 ∧ 0 < d then
          { acc with
            dx := acc.dx - (p.x - acc.x) * (1/20 / d)
            dy := acc.dy - (p.y - acc.y) * (1/20 / d) }
        else acc)
      o1

/-- `Organism.moveTowards`. -/
def Organism.moveTowards (o : Organism) (tx ty : ℚ) : Organism :=
  let dx := tx - o.x
  let dy := ty - o.y
  let dist := sqrtQ (dx * dx + dy * dy)
  if 5 < dist then
    { o with
      dx := o.dx + dx / dist * (o.dna.speed * 2) * (1/10)
      dy := o.dy + dy / dist * (o.dna.speed * 2) * (1/10) }
  else
    { o with targetX := none, targetY := none }

/-- Final block of `Organism.updateAI`: steer towards the target, or add
random wandering jitter (`jx`, `jy` are the two `Math.random()` draws). -/
def Organism.steer (o : Organism) (jx jy : ℚ) : Organism :=
  match o.targetX, o.targetY with
  | some tx, some ty => o.moveTowards tx ty
  | _, _ =>
    { o with dx := o.dx + (jx - 1/2) * (3/10), dy := o.dy + (jy - 1/2) * (3/10) }

/-- The `socialness > 0.5` guard around `applyFlocking`. -/
def Organism.applyFlockingGuard (o : Organism) (organisms : List Organism) : Organism :=
  if 1/2 < o.dna.socialness then o.applyFlocking organisms else o

/-- `Organism.updateAI`. -/
def Organism.updateAI (o : Organism) (organisms : List Organism)
    (food : List Food) (jx jy : ℚ) : Organism :=
  (((o.forage food).hunt organisms).applyFlockingGuard organisms).steer jx jy

/-- One obstacle iteration of the collision loop in `Organism.update`. -/
def Organism.stepObstacle (o : Organism) (ob : Obstacle) : Organism :=
  if o.isCollidingWithObstacle ob then
    let o1 := if o.x < ob.x ∨ ob.x + ob.width < o.x then { o with dx := -o.dx } else o
    let o2 := if o1.y < ob.y ∨ ob.y + ob.height < o1.y then { o1 with dy := -o1.dy } else o1
    { o2 with x := o2.x - o2.dx, y := o2.y - o2.dy }
  else o

/-- The metabolic energy cost charged in `Organism.update`, as a function of
the organism state at the moment the speed is measured. -/
def Organism.metabolicCost (o : Organism) : ℚ :=
  (1/10 + sqrtQ (o.dx * o.dx + o.dy * o.dy) * (1/10)) / o.dna.efficiency

/-- First half of `Organism.update`: aging, movement by velocity, and the
obstacle-collision loop. -/
def Organism.afterMotion (o : Organism) (obstacles : List Obstacle) : Organism :=
  let o1 := { o with age := o.age + 1 }
  let o2 := { o1 with x := o1.x + o1.dx, y := o1.y + o1.dy }
  obstacles.foldl Organism.stepObstacle o2

/-- Second half of `Organism.update` up to friction: wall bounce, clamping
into bounds by radius, and velocity damping. -/
def Organism.afterWalls (o : Organism) (canvasWidth canvasHeight : ℚ) : Organism :=
  let radius := o.getRadius
  let o4 := if o.x ≤ radius ∨ canvasWidth - radius ≤ o.x then { o with dx := -o.dx } else o
  let o5 := if o4.y ≤ radius ∨ canvasHeight - radius ≤ o4.y then { o4 with dy := -o4.dy } else o4
  let o6 := { o5 with
    x := max radius (min (canvasWidth - radius) o5.x)
    y := max radius (min (canvasHeight - radius) o5.y) }
  { o6 with dx := o6.dx * (99/100), dy := o6.dy * (99/100) }

/-- `Organism.update`: age, movement, obstacle bounce, wall bounce, bound
clamping, friction, genetic speed limit, metabolism, cooldown decrement.
(The cosmetic trail update is omitted.)  The speed used for the metabolic
cost is the one measured before the genetic speed limit is applied, as in
the source (`currentSpeed` is captured in a `const` there). -/
def Organism.update (o : Organism) (canvasWidth canvasHeight : ℚ)
    (obstacles : List Obstacle) : Organism :=
  let o7 := (o.afterMotion obstacles).afterWalls canvasWidth canvasHeight
  let maxSpeed := o7.dna.speed * 3
  let currentSpeed := sqrtQ (o7.dx * o7.dx + o7.dy * o7.dy)
  let o8 := if maxSpeed < currentSpeed then
      { o7 with dx := o7.dx / currentSpeed * maxSpeed, dy := o7.dy / currentSpeed * maxSpeed }
    else o7
  let o9 := { o8 with energy := o8.energy - o7.metabolicCost }
  if 0 < o9.reproductionCooldown then
    { o9 with reproductionCooldown := o9.reproductionCooldown - 1 }
  else o9

/-- Food-consumption loop of `World.update`: iterate the food list from
index `j` down to `0`; every colliding food item is eaten (capped at
`maxEnergy`) and removed, unless the organism is a carnivore. -/
def feedStep (o : Organism) (food : List Food) (j : ℕ) : Organism × List Food :=
  match food[j]? with
  | some f =>
    if o.collidesFood f then
      if o.species ≠ Species.carnivore then
        ({ o with energy := min (o.energy + f.energy) o.maxEnergy }, food.eraseIdx j)
      else (o, food)
    else (o, food)
  | none => (o, food)

def feedAux : ℕ → Organism → List Food → Organism × List Food
  | 0, o, food => feedStep o food 0
  | j + 1, o, food => feedAux j (feedStep o food (j + 1)).1 (feedStep o food (j + 1)).2

/-- Food-consumption phase for one organism (the `for j` loop starts at
`food.length - 1`, so it does not run on an empty list). -/
def feedPhase (o : Organism) (food : List Food) : Organism × List Food :=
  if food.isEmpty then (o, food) else feedAux (food.length - 1) o food

/-- The predation guard of `World.update` (threshold `0.6` on aggression —
distinct from the `0.5` hunting-target threshold). -/
def Organism.predGuard (o : Organism) : Prop :=
  o.species = Species.carnivore ∨
    (o.species = Species.omnivore ∧ 3/5 < o.dna.aggression)

instance (o : Organism) : Decidable o.predGuard := by
  unfold Organism.predGuard; infer_instance

/-- The kill condition inside the predation loop: the colliding organism is
a herbivore or has radius below `0.8` of the predator's, and the predator
has strictly more energy. -/
def killCond (pred prey : Organism) : Prop :=
  (prey.species = Species.herbivore ∨ prey.getRadius < pred.getRadius * (4/5)) ∧
    prey.energy < pred.energy

instance (pred prey : Organism) : Decidable (killCond pred prey) := by
  unfold killCond; infer_instance

/-- The descending scan of the predation loop: find the first index `j`
(from high to low, skipping the predator's own index `i`) whose organism
collides with the predator and satisfies the kill condition. -/
def findKillAt (pred : Organism) (orgs : List Organism) (i j : ℕ) :
    Option (ℕ × Organism) :=
  match orgs[j]? with
  | some prey =>
    if j ≠ i ∧ pred.collidesOrg prey ∧ killCond pred prey then
      some (j, prey)
    else none
  | none => none

def findKillAux (pred : Organism) (orgs : List Organism) (i : ℕ) :
    ℕ → Option (ℕ × Organism)
  | 0 => findKillAt pred orgs i 0
  | j + 1 =>
    match findKillAt pred orgs i (j + 1) with
    | some r => some r
    | none => findKillAux pred orgs i j

def findKill (pred : Organism) (orgs : List Organism) (i : ℕ) :
    Option (ℕ × Organism) :=
  if orgs.isEmpty then none else findKillAux pred orgs i (orgs.length - 1)

/-- Predation phase of `World.update` for the organism at index `i`
(passed separately as `pred`, carrying its within-tick mutations).  Returns
the updated predator, the organism list after the removal, whether the
removed prey sat below index `i` (the `if (i > j) i--` adjustment), and
the number of death events recorded.  The loop `break`s after the first
successful kill, so at most one prey is consumed. -/
def predationStep (pred : Organism) (orgs : List Organism) (i : ℕ) :
    Organism × List Organism × Bool × ℕ :=
  if pred.predGuard then
    match findKill pred orgs i with
    | some (j, prey) =>
      let gain := min (prey.energy * (7/10)) (pred.maxEnergy - pred.energy)
      ({ pred with energy := pred.energy + gain }, orgs.eraseIdx j, decide (j < i), 1)
    | none => (pred, orgs, false, 0)
  else (pred, orgs, false, 0)

/-- The mate filter of the reproduction block. -/
def mateOk (org p : Organism) : Prop :=
  p.ident ≠ org.ident ∧ p.species = org.species ∧ p.canReproduce ∧
    org.distanceTo p.x p.y < 50

instance (org p : Organism) : Decidable (mateOk org p) := by
  unfold mateOk; infer_instance

def isPointInObstacle (obstacles : List Obstacle) (x y : ℚ) : Prop :=
  ∃ ob ∈ obstacles, ob.x ≤ x ∧ x ≤ ob.x + ob.width ∧ ob.y ≤ y ∧ y ≤ ob.y + ob.height

instance (obstacles : List Obstacle) (x y : ℚ) :
    Decidable (isPointInObstacle obstacles x y) := by
  unfold isPointInObstacle; infer_instance

/-- Validity check for an offspring's spawn point in `World.update`. -/
def childValid (W H : ℚ) (obstacles : List Obstacle) (c : Organism) : Prop :=
  ¬ isPointInObstacle obstacles c.x c.y ∧
    0 ≤ c.x ∧ c.x ≤ W ∧ 0 ≤ c.y ∧ c.y ≤ H

instance (W H : ℚ) (obstacles : List Obstacle) (c : Organism) :
    Decidable (childValid W H obstacles c) := by
  unfold childValid; infer_instance

/-- Reproduction phase of `World.update` for one organism.  `mateRand` is
the `Math.random()` draw deciding asexual reproduction when no mate is in
range.  Returns the (possibly) mutated parent, the organism list (with the
child appended when its spawn point is valid), the number of reproduction
events recorded, and the next fresh identifier. -/
def reproductionPhase (W H : ℚ) (obstacles : List Obstacle) (mateRand : ℚ)
    (rt : ReproTape) (org : Organism) (orgs : List Organism) (nextId : ℕ) :
    Organism × List Organism × ℕ × ℕ :=
  if org.canReproduce then
    let mates := orgs.filter fun p => decide (mateOk org p)
    if mates ≠ [] ∨ mateRand < 1/10 then
      let rc := org.reproduce mates.head? rt nextId
      if childValid W H obstacles rc.2 then
        (rc.1, orgs ++ [rc.2], 1, nextId + 1)
      else (rc.1, orgs, 0, nextId + 1)
    else (org, orgs, 0, nextId)
  else (org, orgs, 0, nextId)

/-- The mutable collections and counters threaded through the per-tick
organism loop of `World.update`. -/
structure LoopState where
  orgs : List Organism
  food : List Food
  deaths : ℕ
  births : ℕ
  nextId : ℕ
deriving Repr

/-- The random draws consumed while processing one organism. -/
structure StepTape where
  jx : ℚ
  jy : ℚ
  mateRand : ℚ
  repro : ReproTape
deriving Repr

/-- Final part of the per-index processing: the death check, the write-back
of the processed organism into the collection (or its removal together with
the death-event increment), and the assembly of the new loop state. -/
def finishIndex (s : LoopState) (food2 : List Food) (dInc bInc nid : ℕ)
    (orgsC : List Organism) (org4 : Organism) (i' : ℕ) (dec : Bool) :
    LoopState × Bool :=
  if org4.isDead then
    ({ orgs := orgsC.eraseIdx i', food := food2,
       deaths := s.deaths + dInc + 1, births := s.births + bInc,
       nextId := nid }, dec)
  else
    ({ orgs := orgsC.set i' org4, food := food2,
       deaths := s.deaths + dInc, births := s.births + bInc,
       nextId := nid }, dec)

/-- Processing of the organism at index `i` inside the tick loop of
`World.update`: AI + physics update, food consumption, predation,
reproduction, death check.  The returned flag records whether the predation
removal happened below index `i` (used by the loop's index adjustment). -/
def processIndex (W H : ℚ) (obstacles : List Obstacle) (t : StepTape)
    (s : LoopState) (i : ℕ) : LoopState × Bool :=
  match s.orgs[i]? with
  | none => (s, false)
  | some org0 =>
    let org1 := (org0.updateAI s.orgs s.food t.jx t.jy).update W H obstacles
    let orgsA := s.orgs.set i org1
    let fed := feedPhase org1 s.food
    let pred := predationStep fed.1 orgsA i
    let dec := pred.2.2.1
    let i' := if dec then i - 1 else i
    let rep := reproductionPhase W H obstacles t.mateRand t.repro pred.1 pred.2.1 s.nextId
    finishIndex s fed.2 pred.2.2.2 rep.2.2.1 rep.2.2.2 rep.2.1 rep.1 i' dec

/-- The reverse-index organism loop of `World.update`, processing indices
`i, i-1, …, 0` with the predation index adjustment.  The first argument is
fuel for structural recursion; every caller passes at least `i + 1`, which
is enough because the index decreases by at least one per iteration.  Also
returns the list of identifiers of the organisms processed, in order. -/
def orgLoop (W H : ℚ) (obstacles : List Obstacle) (tape : ℕ → StepTape) :
    ℕ → ℕ → LoopState → ℕ → LoopState × List ℕ
  | 0, _, s, _ => (s, [])
  | fuel + 1, k, s, i =>
    match s.orgs[i]? with
    | none => (s, [])
    | some org =>
      let r := processIndex W H obstacles (tape k) s i
      let b : ℕ := if r.2 then 1 else 0
      if 1 + b ≤ i then
        let rest := orgLoop W H obstacles tape fuel (k + 1) r.1 (i - 1 - b)
        (rest.1, org.ident :: rest.2)
      else (r.1, [org.ident])

/-- `World.spawnFood` position selection: draw up to 10 candidate points,
stopping early at the first one outside every obstacle; the last draw is
used regardless (translation of the bounded `do … while` loop). -/
def pickFoodPos (W H : ℚ) (obstacles : List Obstacle) (tries : ℕ → ℚ × ℚ) : ℚ × ℚ :=
  let mk : ℕ → ℚ × ℚ := fun k =>
    ((tries k).1 * (W - 20) + 10, (tries k).2 * (H - 20) + 10)
  match (List.range 10).find? (fun k => ! decide (isPointInObstacle obstacles (mk k).1 (mk k).2)) with
  | some k => mk k
  | none => mk 9

/-- `World.spawnFood`: append `count` food items at randomly selected
positions. -/
def spawnFood (W H : ℚ) (obstacles : List Obstacle) (posTape : ℕ → ℕ → ℚ × ℚ)
    (eTape : ℕ → ℚ) (food : List Food) (count : ℕ) : List Food :=
  (List.range count).foldl
    (fun fs i =>
      let p := pickFoodPos W H obstacles (posTape i)
      fs ++ [Food.make p.1 p.2 (eTape i)])
    food

/-- The `Stats` snapshot. -/
structure Stats where
  herbivoreCount : ℕ
  carnivoreCount : ℕ
  omnivoreCount : ℕ
  totalPopulation : ℕ
  averageAge : ℚ
  averageEnergy : ℚ
  foodCount : ℕ
  reproductionEvents : ℕ
  deathEvents : ℕ
deriving DecidableEq, Repr

/-- The `World` state (canvas geometry and simulation state; rendering and
DOM members omitted, cosmetic particles omitted). -/
structure WState where
  width : ℚ
  height : ℚ
  organisms : List Organism
  food : List Food
  obstacles : List Obstacle
  foodSpawnTimer : ℕ
  time : ℕ
  paused : Bool
  speed : ℚ
  stats : Stats
  nextIdent : ℕ
deriving Repr

/-- The random draws consumed by one logical tick. -/
structure TickTape where
  step : ℕ → StepTape
  spawnCountR : ℚ
  spawnTries : ℕ → ℕ → ℚ × ℚ
  spawnEnergy : ℕ → ℚ

/-- One logical tick of `World.update`: advance time, run the organism
loop, then the periodic food spawning (the cosmetic particle update is
omitted). -/
def tickOnce (st : WState) (t : TickTape) : WState :=
  let s0 : LoopState :=
    { orgs := st.organisms, food := st.food, deaths := st.stats.deathEvents,
      births := st.stats.reproductionEvents, nextId := st.nextIdent }
  let s1 := if st.organisms.isEmpty then s0
    else (orgLoop st.width st.height st.obstacles t.step st.organisms.length 0 s0
      (st.organisms.length - 1)).1
  let timer := st.foodSpawnTimer + 1
  let spawned :=
    if 80 < timer ∧ s1.food.length < 100 then
      (spawnFood st.width st.height st.obstacles t.spawnTries t.spawnEnergy s1.food
        ((t.spawnCountR * 3).floor.toNat + 1), 0)
    else (s1.food, timer)
  { st with
    time := st.time + 1
    organisms := s1.orgs
    food := spawned.1
    foodSpawnTimer := spawned.2
    nextIdent := s1.nextId
    stats := { st.stats with deathEvents := s1.deaths, reproductionEvents := s1.births } }

/-- The ident log of one logical tick (which organism indices were
processed, by identifier): specification companion of `tickOnce`. -/
def tickLog (st : WState) (t : TickTape) : List ℕ :=
  if st.organisms.isEmpty then []
  else
    (orgLoop st.width st.height st.obstacles t.step st.organisms.length 0
      { orgs := st.organisms, food := st.food, deaths := st.stats.deathEvents,
        births := st.stats.reproductionEvents, nextId := st.nextIdent }
      (st.organisms.length - 1)).2

/-- `World.updateStats`. -/
def updateStats (st : WState) : WState :=
  let n := st.organisms.length
  { st with stats := { st.stats with
      herbivoreCount := (st.organisms.filter fun o => decide (o.species = Species.herbivore)).length
      carnivoreCount := (st.organisms.filter fun o => decide (o.species = Species.carnivore)).length
      omnivoreCount := (st.organisms.filter fun o => decide (o.species = Species.omnivore)).length
      totalPopulation := n
      averageAge := if 0 < n then ((st.organisms.map fun o => (o.age : ℚ)).sum) / n else 0
      averageEnergy := if 0 < n then ((st.organisms.map Organism.energy).sum) / n else 0
      foodCount := st.food.length } }

/-- `World.update`: run `speed` logical ticks (the `for (tick = 0; tick <
this.speed; tick++)` loop runs `⌈speed⌉` times for the allowed speeds),
then recompute the statistics snapshot. -/
def WState.update (st : WState) (tapes : ℕ → TickTape) : WState :=
  if st.paused then st
  else
    updateStats ((List.range st.speed.ceil.toNat).foldl
      (fun s k => tickOnce s (tapes k)) st)

/-- The random draws consumed when seeding one founder organism: its
position, its seven DNA draws, and the constructor's velocity draws. -/
structure SeedTape where
  px : ℚ
  py : ℚ
  d1 : ℚ
  d2 : ℚ
  d3 : ℚ
  d4 : ℚ
  d5 : ℚ
  d6 : ℚ
  d7 : ℚ
  v1 : ℚ
  v2 : ℚ
deriving Repr

def seedOrganism (W H : ℚ) (t : SeedTape) (sp : Species) (id : ℕ) : Organism :=
  Organism.make id (t.px * (W - 40) + 20) (t.py * (H - 40) + 20) sp
    (generateRandomDNA t.d1 t.d2 t.d3 t.d4 t.d5 t.d6 t.d7) t.v1 t.v2

/-- `World.setupInitialPopulation`: 25 herbivores, then 15 omnivores, then
10 carnivores, at random positions with freshly generated DNA. -/
def setupInitialPopulation (W H : ℚ) (tape : ℕ → SeedTape) (startId : ℕ) :
    List Organism :=
  ((List.range 25).map fun k => seedOrganism W H (tape k) Species.herbivore (startId + k)) ++
  ((List.range 15).map fun k => seedOrganism W H (tape (25 + k)) Species.omnivore (startId + 25 + k)) ++
  ((List.range 10).map fun k => seedOrganism W H (tape (40 + k)) Species.carnivore (startId + 40 + k))

/-- `World.reset`: clear organisms and food, zero the event counters and
the clock, re-seed the initial population and spawn 40 food items.  The
obstacle list is not touched. -/
def WState.reset (st : WState) (seeds : ℕ → SeedTape) (posTape : ℕ → ℕ → ℚ × ℚ)
    (eTape : ℕ → ℚ) : WState :=
  { st with
    organisms := setupInitialPopulation st.width st.height seeds st.nextIdent
    food := spawnFood st.width st.height st.obstacles posTape eTape [] 40
    time := 0
    nextIdent := st.nextIdent + 50
    stats := { st.stats with reproductionEvents := 0, deathEvents := 0 } }

/-- The founder generation ranges: the image of `generateRandomDNA` over
draws in `[0,1)`, trait by trait. -/
def founderRanges (d : DNA) : Prop :=
  1/2 ≤ d.speed ∧ d.speed < 3/2 ∧
  1/2 ≤ d.efficiency ∧ d.efficiency < 3/2 ∧
  0 ≤ d.aggression ∧ d.aggression < 1 ∧
  4/5 ≤ d.size ∧ d.size < 6/5 ∧
  60 ≤ d.reproductionThreshold ∧ d.reproductionThreshold < 100 ∧
  1500 ≤ d.lifespan ∧ d.lifespan < 4500 ∧
  0 ≤ d.socialness ∧ d.socialness < 1

instance (d : DNA) : Decidable (founderRanges d) := by
  unfold founderRanges; infer_instance

/-- Concrete test organisms: a carnivore with energy 50 and a herbivore
with energy 20 at the same point (the predation scenario of §8), and an
omnivore with aggression 0.55 next to a herbivore (the threshold
scenario). -/
def C3pred : Organism where
  ident := 1
  x := 0
  y := 0
  dx := 0
  dy := 0
  energy := 50
  maxEnergy := 120
  age := 10
  dna := { speed := 1, efficiency := 1, aggression := 1, size := 1,
           reproductionThreshold := 60, lifespan := 3000, socialness := 0 }
  species := Species.carnivore
  targetX := none
  targetY := none
  reproductionCooldown := 0

def C3prey : Organism where
  ident := 0
  x := 0
  y := 0
  dx := 0
  dy := 0
  energy := 20
  maxEnergy := 100
  age := 10
  dna := { speed := 1, efficiency := 1, aggression := 0, size := 1/2,
           reproductionThreshold := 60, lifespan := 3000, socialness := 0 }
  species := Species.herbivore
  targetX := none
  targetY := none
  reproductionCooldown := 0

def C4omn : Organism where
  ident := 0
  x := 0
  y := 0
  dx := 0
  dy := 0
  energy := 50
  maxEnergy := 100
  age := 10
  dna := { speed := 1, efficiency := 1, aggression := 11/20, size := 1/2,
           reproductionThreshold := 60, lifespan := 3000, socialness := 0 }
  species := Species.omnivore
  targetX := none
  targetY := none
  reproductionCooldown := 0

def C4herb : Organism where
  ident := 1
  x := 10
  y := 0
  dx := 0
  dy := 0
  energy := 80
  maxEnergy := 100
  age := 10
  dna := { speed := 1, efficiency := 1, aggression := 0, size := 1/2,
           reproductionThreshold := 60, lifespan := 3000, socialness := 0 }
  species := Species.herbivore
  targetX := none
  targetY := none
  reproductionCooldown := 0

/-- A reproduction-eligible organism next to an obstacle that covers its
offspring's spawn point (for the discarded-offspring scenario). -/
def C7org : Organism where
  ident := 0
  x := 50
  y := 50
  dx := 0
  dy := 0
  energy := 120
  maxEnergy := 120
  age := 300
  dna := { speed := 1, efficiency := 1, aggression := 0, size := 1,
           reproductionThreshold := 60, lifespan := 3000, socialness := 0 }
  species := Species.herbivore
  targetX := none
  targetY := none
  reproductionCooldown := 0

def C7obstacle : Obstacle where
  x := 60
  y := 40
  width := 20
  height := 20

def C7tape : ReproTape where
  p1 := 1/2
  p2 := 1/2
  p3 := 1/2
  p4 := 1/2
  p5 := 1/2
  p6 := 1/2
  p7 := 1/2
  dirC := 1
  dirS := 0
  v1 := 1/2
  v2 := 1/2

/-- Two organism states that agree on everything except velocity and
current target (used to state which fields the AI stages leave alone). -/
def sameBody (a b : Organism) : Prop :=
  a.ident = b.ident ∧ a.x = b.x ∧ a.y = b.y ∧ a.energy = b.energy ∧
  a.maxEnergy = b.maxEnergy ∧ a.age = b.age ∧ a.dna = b.dna ∧
  a.species = b.species ∧ a.reproductionCooldown = b.reproductionCooldown

/-- `sameBody` plus agreement on the current target (everything except
velocity). -/
def sameNonVel (a b : Organism) : Prop :=
  sameBody a b ∧ a.targetX = b.targetX ∧ a.targetY = b.targetY

/-- The per-organism facts preserved by every tick (used for the
energy-cap invariant): energy at most `maxEnergy`, positive efficiency,
nonnegative reproduction threshold. -/
def OrgWF (o : Organism) : Prop :=
  o.energy ≤ o.maxEnergy ∧ 0 < o.dna.efficiency ∧ 0 ≤ o.dna.reproductionThreshold

/-- All organisms of a loop state are well-formed. -/
def WFs (s : LoopState) : Prop := ∀ o ∈ s.orgs, OrgWF o

/-- Identifier discipline of a loop state: identifiers are below the
allocator and pairwise distinct. -/
def IdsOk (s : LoopState) : Prop :=
  (∀ o ∈ s.orgs, o.ident < s.nextId) ∧ (s.orgs.map Organism.ident).Nodup

/-- All organisms of a world state are well-formed. -/
def WStateWF (st : WState) : Prop := ∀ o ∈ st.organisms, OrgWF o

/-- Two organism states that agree on everything except position and
velocity (what the obstacle/wall physics may change). -/
def sameCore (a b : Organism) : Prop :=
  a.ident = b.ident ∧ a.energy = b.energy ∧ a.maxEnergy = b.maxEnergy ∧
  a.age = b.age ∧ a.dna = b.dna ∧ a.species = b.species ∧
  a.reproductionCooldown = b.reproductionCooldown

/-- A constant reproduction tape (all draws at the midpoint, spawn
direction along the positive x axis). -/
def constRepro : ReproTape where
  p1 := 1/2
  p2 := 1/2
  p3 := 1/2
  p4 := 1/2
  p5 := 1/2
  p6 := 1/2
  p7 := 1/2
  dirC := 1
  dirS := 0
  v1 := 1/2
  v2 := 1/2

/-- A constant per-organism step tape. -/
def constStep : StepTape where
  jx := 1/2
  jy := 1/2
  mateRand := 1/2
  repro := constRepro

/-- A constant tick-tape stream. -/
def constTicks : ℕ → TickTape := fun _ =>
  { step := fun _ => constStep
    spawnCountR := 0
    spawnTries := fun _ _ => (1, 1)
    spawnEnergy := fun _ => 25 }

/-- A small concrete world holding one well-formed organism. -/
def C10world : WState where
  width := 800
  height := 600
  organisms := [C3pred]
  food := []
  obstacles := []
  foodSpawnTimer := 0
  time := 0
  paused := false
  speed := 1
  stats := { herbivoreCount := 0, carnivoreCount := 1, omnivoreCount := 0,
             totalPopulation := 1, averageAge := 10, averageEnergy := 50,
             foodCount := 0, reproductionEvents := 0, deathEvents := 0 }
  nextIdent := 2

/-- The trait vector of the C2 scenario herbivore (speed 1; size 0.5 so
that `maxEnergy = 80 + 40 * size = 100` as the scenario prescribes). -/
def scenarioDNA : DNA where
  speed := 1
  efficiency := 1
  aggression := 0
  size := 1/2
  reproductionThreshold := 60
  lifespan := 3000
  socialness := 3/10

/-- The C2 scenario herbivore: at `(100,100)`, at rest, `energy = 80`,
`maxEnergy = 100`. -/
def scenarioOrg : Organism where
  ident := 0
  x := 100
  y := 100
  dx := 0
  dy := 0
  energy := 80
  maxEnergy := 100
  age := 0
  dna := scenarioDNA
  species := Species.herbivore
  targetX := none
  targetY := none
  reproductionCooldown := 0

/-- The C2 scenario food item at `(100,100)`: the `Food.make` draw `1/3`
gives `energy = 25 + 15/3 = 30`. -/
def scenarioFood : Food := Food.make 100 100 (1/3)

/-- The C2 scenario world: one herbivore and one food item, speed 1. -/
def scenarioWorld : WState where
  width := 800
  height := 600
  organisms := [scenarioOrg]
  food := [scenarioFood]
  obstacles := []
  foodSpawnTimer := 0
  time := 0
  paused := false
  speed := 1
  stats := { herbivoreCount := 1, carnivoreCount := 0, omnivoreCount := 0,
             totalPopulation := 1, averageAge := 0, averageEnergy := 80,
             foodCount := 1, reproductionEvents := 0, deathEvents := 0 }
  nextIdent := 1

/-- The metabolic cost charged to the scenario herbivore during the C2
scenario tick, as a function of that tick's random draws (the state at
which the speed is measured, after motion, walls and friction). -/
def scenarioCost (t : TickTape) : ℚ :=
  Organism.metabolicCost
    (((scenarioOrg.updateAI [scenarioOrg] [scenarioFood] (t.step 0).jx
      (t.step 0).jy).afterMotion []).afterWalls 800 600)

/-- The C2 scenario herbivore after motion, walls and friction (velocity
jitter `a`, `b`). -/
def scenarioMoved (a b : ℚ) : Organism :=
  { scenarioOrg with dx := a * (99/100), dy := b * (99/100), age := 1, x := 100 + a, y := 100 + b }

/-- A concrete tick tape for the C2 scenario (jitter draws 4/5 and 9/10). -/
def scenarioTape : TickTape where
  step := fun _ => { jx := 4/5, jy := 9/10, mateRand := 1/2, repro := constRepro }
  spawnCountR := 0
  spawnTries := fun _ _ => (1, 1)
  spawnEnergy := fun _ => 25

/-- The identifier list of an organism collection. -/
def orgIds (l : List Organism) : List ℕ := l.map Organism.ident

/-- From position `m` on, every organism of the collection has already
passed this tick's death check: none of them is dead. -/
def AliveFrom (l : List Organism) (m : ℕ) : Prop :=
  ∀ (k : ℕ) (o : Organism), m ≤ k → l[k]? = some o → ¬ o.isDead

/-- Boolean check that every organism of a world state satisfies the
energy cap. -/
def energyOkAll (st : WState) : Bool :=
  st.organisms.all fun o => decide (o.energy ≤ o.maxEnergy)

/-! ### Basic lemmas -/

theorem sqrtQ_nonneg (q : ℚ) : 0 ≤ sqrtQ q := Rat.sqrt_nonneg q

/-- If `q ≤ 1` then `sqrtQ q ≤ 1`: the numerator is at most the
denominator, and integer square roots are monotone. -/
theorem sqrtQ_le_one {q : ℚ} (h : q ≤ 1) : sqrtQ q ≤ 1 := by
  unfold sqrtQ Rat.sqrt
  have hden : 0 < q.den := q.den_pos
  have hdenQ : (0 : ℚ) < (q.den : ℚ) := by exact_mod_cast hden
  have hnumQ : (q.num : ℚ) = q * (q.den : ℚ) := by
    have h0 := Rat.num_div_den q
    rw [div_eq_iff (by positivity)] at h0
    exact h0
  have hnum : q.num ≤ (q.den : ℤ) := by
    have : (q.num : ℚ) ≤ (q.den : ℚ) := by
      rw [hnumQ]
      nlinarith
    exact_mod_cast this
  have h1 : (Nat.sqrt q.num.toNat : ℕ) ≤ Nat.sqrt q.den :=
    Nat.sqrt_le_sqrt (by omega)
  have hs : 0 < Nat.sqrt q.den := Nat.sqrt_pos.mpr hden
  rw [Rat.mkRat_eq_divInt, Rat.divInt_eq_div]
  rw [div_le_one (by exact_mod_cast hs)]
  unfold Int.sqrt
  exact_mod_cast h1

/-- `sqrtQ` of a square of a nonnegative rational. -/
theorem sqrtQ_sq {q : ℚ} (h : 0 ≤ q) : sqrtQ (q * q) = q := by
  unfold sqrtQ
  rw [Rat.sqrt_eq, abs_of_nonneg h]

theorem clampQ_mem {lo hi v : ℚ} (h : lo ≤ hi) :
    lo ≤ clampQ lo hi v ∧ clampQ lo hi v ≤ hi := by
  constructor
  · exact le_max_left _ _
  · exact max_le h (min_le_left _ _)

theorem le_clampQ (lo hi v : ℚ) : lo ≤ clampQ lo hi v := le_max_left _ _

theorem clampQ_le {lo hi : ℚ} (v : ℚ) (h : lo ≤ hi) : clampQ lo hi v ≤ hi :=
  max_le h (min_le_left _ _)

theorem clampDNA_inRange (d : DNA) : dnaInRange (clampDNA d) := by
  unfold dnaInRange clampDNA
  exact ⟨le_clampQ _ _ _, clampQ_le _ (by norm_num),
    le_clampQ _ _ _, clampQ_le _ (by norm_num),
    le_clampQ _ _ _, clampQ_le _ (by norm_num),
    le_clampQ _ _ _, clampQ_le _ (by norm_num),
    le_clampQ _ _ _, clampQ_le _ (by norm_num),
    le_clampQ _ _ _, clampQ_le _ (by norm_num),
    le_clampQ _ _ _, clampQ_le _ (by norm_num)⟩

theorem Organism.three_le_getRadius (o : Organism) : 3 ≤ o.getRadius :=
  le_max_left _ _

theorem Organism.distanceTo_nonneg (o : Organism) (x y : ℚ) :
    0 ≤ o.distanceTo x y := sqrtQ_nonneg _


theorem sqrtQ_zero : sqrtQ 0 = 0 := by
  have h := sqrtQ_sq (le_refl (0 : ℚ))
  simpa using h

theorem sameBody_refl (a : Organism) : sameBody a a := by
  unfold sameBody
  exact ⟨rfl, rfl, rfl, rfl, rfl, rfl, rfl, rfl, rfl⟩

theorem sameBody_trans {a b c : Organism} (h1 : sameBody a b) (h2 : sameBody b c) :
    sameBody a c := by
  unfold sameBody at *
  exact ⟨h1.1.trans h2.1, h1.2.1.trans h2.2.1, h1.2.2.1.trans h2.2.2.1,
    h1.2.2.2.1.trans h2.2.2.2.1, h1.2.2.2.2.1.trans h2.2.2.2.2.1,
    h1.2.2.2.2.2.1.trans h2.2.2.2.2.2.1, h1.2.2.2.2.2.2.1.trans h2.2.2.2.2.2.2.1,
    h1.2.2.2.2.2.2.2.1.trans h2.2.2.2.2.2.2.2.1,
    h1.2.2.2.2.2.2.2.2.trans h2.2.2.2.2.2.2.2.2⟩

theorem sameNonVel_refl (a : Organism) : sameNonVel a a :=
  ⟨sameBody_refl a, rfl, rfl⟩

theorem sameNonVel_trans {a b c : Organism} (h1 : sameNonVel a b)
    (h2 : sameNonVel b c) : sameNonVel a c :=
  ⟨sameBody_trans h1.1 h2.1, h1.2.1.trans h2.2.1, h1.2.2.trans h2.2.2⟩

theorem forage_sameBody (o : Organism) (food : List Food) :
    sameBody (o.forage food) o := by
  unfold Organism.forage
  split
  · split <;> simp [sameBody]
  · exact sameBody_refl o

theorem hunt_sameBody (o : Organism) (orgs : List Organism) :
    sameBody (o.hunt orgs) o := by
  unfold Organism.hunt
  dsimp only
  split
  · split
    · split <;> simp [sameBody]
    · exact sameBody_refl o
  · exact sameBody_refl o

theorem foldl_sameNonVel {f : Organism → Organism → Organism}
    (hf : ∀ a p, sameNonVel (f a p) a) :
    ∀ (m : List Organism) (acc : Organism), sameNonVel (m.foldl f acc) acc := by
  intro m
  induction m with
  | nil => intro acc; exact sameNonVel_refl acc
  | cons p rest ih =>
    intro acc
    simp only [List.foldl_cons]
    exact sameNonVel_trans (ih (f acc p)) (hf acc p)

theorem applyFlocking_sameNonVel (o : Organism) (orgs : List Organism) :
    sameNonVel (o.applyFlocking orgs) o := by
  unfold Organism.applyFlocking
  dsimp only
  split
  · exact sameNonVel_refl o
  · refine sameNonVel_trans
      (foldl_sameNonVel ?_ _ _) (by simp [sameNonVel, sameBody])
    intro a p
    dsimp only
    split <;> simp [sameNonVel, sameBody]

theorem applyFlockingGuard_sameNonVel (o : Organism) (orgs : List Organism) :
    sameNonVel (o.applyFlockingGuard orgs) o := by
  unfold Organism.applyFlockingGuard
  split
  · exact applyFlocking_sameNonVel o orgs
  · exact sameNonVel_refl o

theorem moveTowards_sameBody (o : Organism) (tx ty : ℚ) :
    sameBody (o.moveTowards tx ty) o := by
  unfold Organism.moveTowards
  dsimp only
  split <;> simp [sameBody]

theorem steer_sameBody (o : Organism) (jx jy : ℚ) :
    sameBody (o.steer jx jy) o := by
  unfold Organism.steer
  split
  · exact moveTowards_sameBody _ _ _
  · simp [sameBody]

theorem updateAI_sameBody (o : Organism) (orgs : List Organism)
    (food : List Food) (jx jy : ℚ) :
    sameBody (o.updateAI orgs food jx jy) o := by
  unfold Organism.updateAI
  exact sameBody_trans (steer_sameBody _ _ _)
    (sameBody_trans (applyFlockingGuard_sameNonVel _ _).1
      (sameBody_trans (hunt_sameBody _ _) (forage_sameBody _ _)))

/-! ### Physics stage lemmas -/

theorem sameCore_refl (a : Organism) : sameCore a a :=
  ⟨rfl, rfl, rfl, rfl, rfl, rfl, rfl⟩

theorem sameCore_trans {a b c : Organism} (h1 : sameCore a b) (h2 : sameCore b c) :
    sameCore a c :=
  ⟨h1.1.trans h2.1, h1.2.1.trans h2.2.1, h1.2.2.1.trans h2.2.2.1,
    h1.2.2.2.1.trans h2.2.2.2.1, h1.2.2.2.2.1.trans h2.2.2.2.2.1,
    h1.2.2.2.2.2.1.trans h2.2.2.2.2.2.1, h1.2.2.2.2.2.2.trans h2.2.2.2.2.2.2⟩

theorem stepObstacle_sameCore (o : Organism) (ob : Obstacle) :
    sameCore (o.stepObstacle ob) o := by
  unfold Organism.stepObstacle
  split
  · dsimp only
    split <;> split <;> simp [sameCore]
  · exact sameCore_refl o

theorem foldl_sameCore {β : Type} {f : Organism → β → Organism}
    (hf : ∀ a b, sameCore (f a b) a) :
    ∀ (m : List β) (acc : Organism), sameCore (m.foldl f acc) acc := by
  intro m
  induction m with
  | nil => intro acc; exact sameCore_refl acc
  | cons p rest ih =>
    intro acc
    simp only [List.foldl_cons]
    exact sameCore_trans (ih (f acc p)) (hf acc p)

theorem afterMotion_core (o : Organism) (obstacles : List Obstacle) :
    (o.afterMotion obstacles).ident = o.ident ∧
    (o.afterMotion obstacles).energy = o.energy ∧
    (o.afterMotion obstacles).maxEnergy = o.maxEnergy ∧
    (o.afterMotion obstacles).age = o.age + 1 ∧
    (o.afterMotion obstacles).dna = o.dna ∧
    (o.afterMotion obstacles).species = o.species ∧
    (o.afterMotion obstacles).reproductionCooldown = o.reproductionCooldown := by
  unfold Organism.afterMotion
  dsimp only
  have h := foldl_sameCore stepObstacle_sameCore obstacles
    { o with age := o.age + 1, x := o.x + o.dx, y := o.y + o.dy }
  obtain ⟨h1, h2, h3, h4, h5, h6, h7⟩ := h
  exact ⟨h1, h2, h3, h4, h5, h6, h7⟩

theorem afterWalls_sameCore (o : Organism) (W H : ℚ) :
    sameCore (o.afterWalls W H) o := by
  unfold Organism.afterWalls
  dsimp only
  split <;> split <;> simp [sameCore]

/-- Decomposition of `Organism.update`: every non-kinematic field, and the
energy equation (cost measured on the post-friction state). -/
theorem update_spec (o : Organism) (W H : ℚ) (obstacles : List Obstacle) :
    (o.update W H obstacles).ident = o.ident ∧
    (o.update W H obstacles).energy =
      o.energy - Organism.metabolicCost ((o.afterMotion obstacles).afterWalls W H) ∧
    (o.update W H obstacles).maxEnergy = o.maxEnergy ∧
    (o.update W H obstacles).age = o.age + 1 ∧
    (o.update W H obstacles).dna = o.dna ∧
    (o.update W H obstacles).species = o.species := by
  obtain ⟨hw1, hw2, hw3, hw4, hw5, hw6, hw7⟩ :=
    afterWalls_sameCore (o.afterMotion obstacles) W H
  obtain ⟨hm1, hm2, hm3, hm4, hm5, hm6, hm7⟩ := afterMotion_core o obstacles
  unfold Organism.update
  dsimp only
  split <;> split <;>
    exact ⟨hw1.trans hm1, by rw [hw2, hm2], hw3.trans hm3, hw4.trans hm4,
      hw5.trans hm5, hw6.trans hm6⟩

theorem metabolicCost_pos {o : Organism} (h : 0 < o.dna.efficiency) :
    0 < o.metabolicCost := by
  unfold Organism.metabolicCost
  have hs := sqrtQ_nonneg (o.dx * o.dx + o.dy * o.dy)
  have hn : 0 < 1/10 + sqrtQ (o.dx * o.dx + o.dy * o.dy) * (1/10) := by linarith
  exact div_pos hn h

theorem update_energy_lt {o : Organism} (W H : ℚ) (obstacles : List Obstacle)
    (h : 0 < o.dna.efficiency) :
    (o.update W H obstacles).energy < o.energy := by
  have hs := update_spec o W H obstacles
  rw [hs.2.1]
  have heff : ((o.afterMotion obstacles).afterWalls W H).dna.efficiency =
      o.dna.efficiency :=
    congrArg DNA.efficiency
      ((afterWalls_sameCore (o.afterMotion obstacles) W H).2.2.2.2.1.trans
        (afterMotion_core o obstacles).2.2.2.2.1)
  have := @metabolicCost_pos ((o.afterMotion obstacles).afterWalls W H)
    (by rw [heff]; exact h)
  linarith

/-! ### Feeding phase lemmas -/

theorem feedStep_fields (o : Organism) (fd : List Food) (j : ℕ) :
    (feedStep o fd j).1.ident = o.ident ∧
    (feedStep o fd j).1.dna = o.dna ∧
    (feedStep o fd j).1.maxEnergy = o.maxEnergy ∧
    (feedStep o fd j).1.species = o.species ∧
    (feedStep o fd j).1.age = o.age ∧
    (feedStep o fd j).1.reproductionCooldown = o.reproductionCooldown := by
  unfold feedStep
  cases fd[j]? with
  | none => exact ⟨rfl, rfl, rfl, rfl, rfl, rfl⟩
  | some f =>
    dsimp only
    split
    · split <;> exact ⟨rfl, rfl, rfl, rfl, rfl, rfl⟩
    · exact ⟨rfl, rfl, rfl, rfl, rfl, rfl⟩

theorem feedStep_energy_le (o : Organism) (fd : List Food) (j : ℕ)
    (h : o.energy ≤ o.maxEnergy) : (feedStep o fd j).1.energy ≤ o.maxEnergy := by
  unfold feedStep
  cases fd[j]? with
  | none => exact h
  | some f =>
    dsimp only
    split
    · split
      · exact min_le_right _ _
      · exact h
    · exact h

theorem feedAux_fields : ∀ (j : ℕ) (o : Organism) (fd : List Food),
    (feedAux j o fd).1.ident = o.ident ∧
    (feedAux j o fd).1.dna = o.dna ∧
    (feedAux j o fd).1.maxEnergy = o.maxEnergy ∧
    (feedAux j o fd).1.species = o.species ∧
    (feedAux j o fd).1.age = o.age ∧
    (feedAux j o fd).1.reproductionCooldown = o.reproductionCooldown := by
  intro j
  induction j with
  | zero =>
    intro o fd
    exact feedStep_fields o fd 0
  | succ j ih =>
    intro o fd
    have h1 := feedStep_fields o fd (j + 1)
    have h2 := ih (feedStep o fd (j + 1)).1 (feedStep o fd (j + 1)).2
    unfold feedAux
    exact ⟨h2.1.trans h1.1, h2.2.1.trans h1.2.1, h2.2.2.1.trans h1.2.2.1,
      h2.2.2.2.1.trans h1.2.2.2.1, h2.2.2.2.2.1.trans h1.2.2.2.2.1,
      h2.2.2.2.2.2.trans h1.2.2.2.2.2⟩

theorem feedAux_energy_le : ∀ (j : ℕ) (o : Organism) (fd : List Food),
    o.energy ≤ o.maxEnergy → (feedAux j o fd).1.energy ≤ o.maxEnergy := by
  intro j
  induction j with
  | zero =>
    intro o fd h
    exact feedStep_energy_le o fd 0 h
  | succ j ih =>
    intro o fd h
    have hstep := feedStep_energy_le o fd (j + 1) h
    have hmax := (feedStep_fields o fd (j + 1)).2.2.1
    unfold feedAux
    have := ih (feedStep o fd (j + 1)).1 (feedStep o fd (j + 1)).2
      (by rw [hmax]; exact hstep)
    rw [hmax] at this
    exact this

theorem feedPhase_fields (o : Organism) (fd : List Food) :
    (feedPhase o fd).1.ident = o.ident ∧
    (feedPhase o fd).1.dna = o.dna ∧
    (feedPhase o fd).1.maxEnergy = o.maxEnergy ∧
    (feedPhase o fd).1.species = o.species ∧
    (feedPhase o fd).1.age = o.age ∧
    (feedPhase o fd).1.reproductionCooldown = o.reproductionCooldown := by
  unfold feedPhase
  split
  · exact ⟨rfl, rfl, rfl, rfl, rfl, rfl⟩
  · exact feedAux_fields _ o fd

theorem feedPhase_energy_le (o : Organism) (fd : List Food)
    (h : o.energy ≤ o.maxEnergy) : (feedPhase o fd).1.energy ≤ o.maxEnergy := by
  unfold feedPhase
  split
  · exact h
  · exact feedAux_energy_le _ o fd h


/-! ### Specification of the predation scan -/

theorem findKillAt_some {pred : Organism} {orgs : List Organism} {i j j' : ℕ}
    {prey : Organism} (h : findKillAt pred orgs i j = some (j', prey)) :
    j' = j ∧ orgs[j']? = some prey ∧ j' ≠ i ∧ pred.collidesOrg prey ∧
      killCond pred prey := by
  unfold findKillAt at h
  cases hg : orgs[j]? with
  | none => simp [hg] at h
  | some q =>
    simp only [hg] at h
    by_cases hc : j ≠ i ∧ pred.collidesOrg q ∧ killCond pred q
    · rw [if_pos hc] at h
      simp only [Option.some.injEq, Prod.mk.injEq] at h
      obtain ⟨rfl, rfl⟩ := h
      exact ⟨rfl, hg, hc.1, hc.2.1, hc.2.2⟩
    · rw [if_neg hc] at h
      cases h

theorem findKillAux_some {pred : Organism} {orgs : List Organism} {i : ℕ} :
    ∀ {j j' : ℕ} {prey : Organism},
      findKillAux pred orgs i j = some (j', prey) →
      orgs[j']? = some prey ∧ j' ≠ i ∧ pred.collidesOrg prey ∧
        killCond pred prey := by
  intro j
  induction j with
  | zero =>
    intro j' prey h
    unfold findKillAux at h
    have := findKillAt_some h
    exact ⟨this.2.1, this.2.2.1, this.2.2.2.1, this.2.2.2.2⟩
  | succ j ih =>
    intro j' prey h
    unfold findKillAux at h
    revert h
    cases hat : findKillAt pred orgs i (j + 1) with
    | some r =>
      intro h
      obtain rfl : r = (j', prey) := by cases h; rfl
      have := findKillAt_some hat
      exact ⟨this.2.1, this.2.2.1, this.2.2.2.1, this.2.2.2.2⟩
    | none =>
      intro h
      exact ih h

theorem findKill_some {pred : Organism} {orgs : List Organism} {i j : ℕ}
    {prey : Organism} (h : findKill pred orgs i = some (j, prey)) :
    j < orgs.length ∧ orgs[j]? = some prey ∧ j ≠ i ∧
      pred.collidesOrg prey ∧ killCond pred prey := by
  unfold findKill at h
  split at h
  · cases h
  · have hs := findKillAux_some h
    have hlt : j < orgs.length := by
      by_contra hge
      rw [List.getElem?_eq_none (by omega)] at hs
      cases hs.1
    exact ⟨hlt, hs.1, hs.2.1, hs.2.2.1, hs.2.2.2⟩

/-! ### Predation and reproduction phase case analyses -/

theorem predationStep_cases (p : Organism) (os : List Organism) (i : ℕ) :
    predationStep p os i = (p, os, false, 0) ∨
    ∃ j prey, findKill p os i = some (j, prey) ∧ j < os.length ∧ j ≠ i ∧
      predationStep p os i =
        ({ p with energy := p.energy + min (prey.energy * (7/10)) (p.maxEnergy - p.energy) }, os.eraseIdx j, decide (j < i), 1) := by
  cases hfk : findKill p os i with
  | none =>
    left
    unfold predationStep
    split
    · rw [hfk]
    · rfl
  | some r =>
    obtain ⟨j, prey⟩ := r
    by_cases hg : p.predGuard
    · right
      refine ⟨j, prey, rfl, (findKill_some hfk).1, (findKill_some hfk).2.2.1, ?_⟩
      unfold predationStep
      rw [if_pos hg, hfk]
    · left
      unfold predationStep
      rw [if_neg hg]

theorem reproductionPhase_cases (W H : ℚ) (obs : List Obstacle) (mr : ℚ)
    (rt : ReproTape) (org : Organism) (orgs : List Organism) (nid : ℕ) :
    reproductionPhase W H obs mr rt org orgs nid = (org, orgs, 0, nid) ∨
    (∃ m, reproductionPhase W H obs mr rt org orgs nid =
      ((org.reproduce m rt nid).1, orgs, 0, nid + 1)) ∨
    (∃ m, reproductionPhase W H obs mr rt org orgs nid =
      ((org.reproduce m rt nid).1, orgs ++ [(org.reproduce m rt nid).2], 1, nid + 1)) := by
  unfold reproductionPhase
  split
  · dsimp only
    split
    · split
      · exact Or.inr (Or.inr ⟨_, rfl⟩)
      · exact Or.inr (Or.inl ⟨_, rfl⟩)
    · exact Or.inl rfl
  · exact Or.inl rfl

theorem reproduce_fst_fields (o : Organism) (m : Option Organism)
    (t : ReproTape) (cid : ℕ) :
    (o.reproduce m t cid).1.ident = o.ident ∧
    (o.reproduce m t cid).1.energy = o.energy - o.dna.reproductionThreshold * (3/5) ∧
    (o.reproduce m t cid).1.maxEnergy = o.maxEnergy ∧
    (o.reproduce m t cid).1.age = o.age ∧
    (o.reproduce m t cid).1.dna = o.dna ∧
    (o.reproduce m t cid).1.species = o.species ∧
    (o.reproduce m t cid).1.reproductionCooldown = 300 := by
  unfold Organism.reproduce
  cases m <;> exact ⟨rfl, rfl, rfl, rfl, rfl, rfl, rfl⟩

theorem reproduce_child_spec (o : Organism) (m : Option Organism)
    (t : ReproTape) (cid : ℕ) :
    (o.reproduce m t cid).2.ident = cid ∧
    OrgWF (o.reproduce m t cid).2 ∧
    ¬ (o.reproduce m t cid).2.isDead := by
  have hdna : dnaInRange (o.reproduce m t cid).2.dna := by
    cases m <;>
      simp only [Organism.reproduce, Organism.make] <;>
      exact clampDNA_inRange _
  have hsize : 1/2 ≤ (o.reproduce m t cid).2.dna.size ∧
      (o.reproduce m t cid).2.dna.size ≤ 3/2 :=
    ⟨hdna.2.2.2.2.2.2.1, hdna.2.2.2.2.2.2.2.1⟩
  have heff : 0 < (o.reproduce m t cid).2.dna.efficiency := by
    have := hdna.2.2.1
    linarith
  have hthr : 0 ≤ (o.reproduce m t cid).2.dna.reproductionThreshold := by
    have := hdna.2.2.2.2.2.2.2.2.1
    linarith
  have hlife : 1000 ≤ (o.reproduce m t cid).2.dna.lifespan :=
    hdna.2.2.2.2.2.2.2.2.2.2.1
  have hident : (o.reproduce m t cid).2.ident = cid := by
    cases m <;> rfl
  have hme : (o.reproduce m t cid).2.maxEnergy =
      80 + (o.reproduce m t cid).2.dna.size * 40 := by
    cases m <;> rfl
  have hen : (o.reproduce m t cid).2.energy =
      (80 + (o.reproduce m t cid).2.dna.size * 40) * (4/5) := by
    cases m <;> rfl
  have hage : (o.reproduce m t cid).2.age = 0 := by
    cases m <;> rfl
  refine ⟨hident, ⟨?_, heff, hthr⟩, ?_⟩
  · rw [hme, hen]
    nlinarith [hsize.1]
  · unfold Organism.isDead
    push_neg
    constructor
    · rw [hen]
      nlinarith [hsize.1]
    · rw [hage]
      push_cast
      linarith


/-! ### Per-index processing: conservation of population + death count -/

theorem finish_conserve (s : LoopState) (food2 : List Food) (dInc bInc nid : ℕ)
    (orgsC : List Organism) (org4 : Organism) (i' : ℕ) (dec : Bool)
    (h : i' < orgsC.length) :
    (finishIndex s food2 dInc bInc nid orgsC org4 i' dec).1.orgs.length +
        (finishIndex s food2 dInc bInc nid orgsC org4 i' dec).1.deaths
      = orgsC.length + s.deaths + dInc ∧
    (finishIndex s food2 dInc bInc nid orgsC org4 i' dec).1.births = s.births + bInc := by
  unfold finishIndex
  split
  · dsimp only
    constructor
    · rw [List.length_eraseIdx_of_lt h]
      omega
    · rfl
  · dsimp only
    constructor
    · simp only [List.length_set]
      omega
    · rfl

/-- Every removal from the organism collection during the processing of one
index comes with exactly one `deathEvents` increment, and every addition
with exactly one `reproductionEvents` increment:
`length + deaths - births` is invariant. -/
theorem processIndex_conserve (W H : ℚ) (obs : List Obstacle) (t : StepTape)
    (s : LoopState) (i : ℕ) (hi : i < s.orgs.length) :
    (processIndex W H obs t s i).1.orgs.length + (processIndex W H obs t s i).1.deaths
        + s.births
      = s.orgs.length + s.deaths + (processIndex W H obs t s i).1.births := by
  unfold processIndex
  rw [List.getElem?_eq_getElem hi]
  dsimp only
  set org1 := (s.orgs[i].updateAI s.orgs s.food t.jx t.jy).update W H obs with horg1
  set fed1 := (feedPhase org1 s.food).1 with hfed1
  have hlenA1 : (s.orgs.set i org1).length = s.orgs.length := by simp
  rcases predationStep_cases fed1 (s.orgs.set i org1) i with hP |
    ⟨j, prey, hfk, hjlen, hjne, hP⟩
  · rw [hP]
    dsimp only
    have hif : (if (false : Bool) then i - 1 else i) = i := rfl
    rw [hif]
    rcases reproductionPhase_cases W H obs t.mateRand t.repro fed1
      (s.orgs.set i org1) s.nextId with hR | ⟨m, hR⟩ | ⟨m, hR⟩ <;> rw [hR] <;> dsimp only
    · obtain ⟨hc1, hc2⟩ := finish_conserve s (feedPhase org1 s.food).2 0 0 s.nextId
        (s.orgs.set i org1) fed1 i false (by omega)
      simp only [hlenA1] at hc1
      omega
    · obtain ⟨hc1, hc2⟩ := finish_conserve s (feedPhase org1 s.food).2 0 0 (s.nextId + 1)
        (s.orgs.set i org1) (fed1.reproduce m t.repro s.nextId).1 i false (by omega)
      simp only [hlenA1] at hc1
      omega
    · obtain ⟨hc1, hc2⟩ := finish_conserve s (feedPhase org1 s.food).2 0 1 (s.nextId + 1)
        ((s.orgs.set i org1) ++ [(fed1.reproduce m t.repro s.nextId).2])
        (fed1.reproduce m t.repro s.nextId).1 i false
        (by simp only [List.length_append, List.length_cons, List.length_nil, hlenA1]; omega)
      simp only [List.length_append, List.length_cons, List.length_nil, hlenA1] at hc1
      omega
  · rw [hP]
    dsimp only
    rw [hlenA1] at hjlen
    have hlenA2 : ((s.orgs.set i org1).eraseIdx j).length = s.orgs.length - 1 := by
      rw [List.length_eraseIdx_of_lt (by rw [hlenA1]; exact hjlen)]
      rw [hlenA1]
    set killed : Organism :=
      { fed1 with energy := fed1.energy + min (prey.energy * (7/10)) (fed1.maxEnergy - fed1.energy) } with hkilled
    have hibound : (if decide (j < i) then i - 1 else i) < s.orgs.length - 1 := by
      by_cases hji : j < i
      · simp only [hji, decide_eq_true_eq, if_pos]
        omega
      · have : i < j := by omega
        simp only [decide_eq_false hji, if_neg, Bool.false_eq_true, if_false]
        omega
    rcases reproductionPhase_cases W H obs t.mateRand t.repro killed
      ((s.orgs.set i org1).eraseIdx j) s.nextId with hR | ⟨m, hR⟩ | ⟨m, hR⟩ <;>
      rw [hR] <;> dsimp only
    · obtain ⟨hc1, hc2⟩ := finish_conserve s (feedPhase org1 s.food).2 1 0 s.nextId
        ((s.orgs.set i org1).eraseIdx j) killed
        (if decide (j < i) then i - 1 else i) (decide (j < i))
        (by rw [hlenA2]; exact hibound)
      simp only [hlenA2] at hc1
      omega
    · obtain ⟨hc1, hc2⟩ := finish_conserve s (feedPhase org1 s.food).2 1 0 (s.nextId + 1)
        ((s.orgs.set i org1).eraseIdx j) (killed.reproduce m t.repro s.nextId).1
        (if decide (j < i) then i - 1 else i) (decide (j < i))
        (by rw [hlenA2]; exact hibound)
      simp only [hlenA2] at hc1
      omega
    · obtain ⟨hc1, hc2⟩ := finish_conserve s (feedPhase org1 s.food).2 1 1 (s.nextId + 1)
        (((s.orgs.set i org1).eraseIdx j) ++ [(killed.reproduce m t.repro s.nextId).2])
        (killed.reproduce m t.repro s.nextId).1
        (if decide (j < i) then i - 1 else i) (decide (j < i))
        (by simp only [List.length_append, List.length_cons, List.length_nil, hlenA2]; omega)
      simp only [List.length_append, List.length_cons, List.length_nil, hlenA2] at hc1
      omega

theorem finish_snd (s : LoopState) (food2 : List Food) (dInc bInc nid : ℕ)
    (orgsC : List Organism) (org4 : Organism) (i' : ℕ) (dec : Bool) :
    (finishIndex s food2 dInc bInc nid orgsC org4 i' dec).2 = dec := by
  unfold finishIndex
  split <;> rfl

theorem finish_length_lb (s : LoopState) (food2 : List Food) (dInc bInc nid : ℕ)
    (orgsC : List Organism) (org4 : Organism) (i' : ℕ) (dec : Bool) :
    orgsC.length - 1 ≤ (finishIndex s food2 dInc bInc nid orgsC org4 i' dec).1.orgs.length := by
  unfold finishIndex
  split
  · dsimp only
    have := List.le_length_eraseIdx orgsC i'
    omega
  · dsimp only
    simp

/-- After processing index `i` (valid), the next index of the reverse loop,
`i - 1 - b` with `b` the predation index adjustment, is again a valid index
when the loop continues. -/
theorem processIndex_next (W H : ℚ) (obs : List Obstacle) (t : StepTape)
    (s : LoopState) (i : ℕ) (hi : i < s.orgs.length)
    (hcont : 1 + (if (processIndex W H obs t s i).2 = true then 1 else 0) ≤ i) :
    i - 1 - (if (processIndex W H obs t s i).2 = true then 1 else 0) <
      (processIndex W H obs t s i).1.orgs.length := by
  unfold processIndex at hcont ⊢
  rw [List.getElem?_eq_getElem hi] at hcont ⊢
  dsimp only at hcont ⊢
  set org1 := (s.orgs[i].updateAI s.orgs s.food t.jx t.jy).update W H obs with horg1
  set fed1 := (feedPhase org1 s.food).1 with hfed1
  have hlenA1 : (s.orgs.set i org1).length = s.orgs.length := by simp
  rcases predationStep_cases fed1 (s.orgs.set i org1) i with hP |
    ⟨j, prey, hfk, hjlen, hjne, hP⟩
  · rw [hP] at hcont ⊢
    dsimp only at hcont ⊢
    have hif : (if (false : Bool) then i - 1 else i) = i := rfl
    rw [hif]
    rcases reproductionPhase_cases W H obs t.mateRand t.repro fed1
      (s.orgs.set i org1) s.nextId with hR | ⟨m, hR⟩ | ⟨m, hR⟩ <;> rw [hR] <;> dsimp only
    · have hlb := finish_length_lb s (feedPhase org1 s.food).2 0 0 s.nextId
        (s.orgs.set i org1) fed1 i false
      rw [hlenA1] at hlb
      simp only [finish_snd] at hcont ⊢
      simp at hcont ⊢
      omega
    · have hlb := finish_length_lb s (feedPhase org1 s.food).2 0 0 (s.nextId + 1)
        (s.orgs.set i org1) (fed1.reproduce m t.repro s.nextId).1 i false
      rw [hlenA1] at hlb
      simp only [finish_snd] at hcont ⊢
      simp at hcont ⊢
      omega
    · have hlb := finish_length_lb s (feedPhase org1 s.food).2 0 1 (s.nextId + 1)
        ((s.orgs.set i org1) ++ [(fed1.reproduce m t.repro s.nextId).2])
        (fed1.reproduce m t.repro s.nextId).1 i false
      simp only [List.length_append, List.length_cons, List.length_nil, hlenA1] at hlb
      simp only [finish_snd] at hcont ⊢
      simp at hcont ⊢
      omega
  · rw [hP] at hcont ⊢
    dsimp only at hcont ⊢
    rw [hlenA1] at hjlen
    have hlenA2 : ((s.orgs.set i org1).eraseIdx j).length = s.orgs.length - 1 := by
      rw [List.length_eraseIdx_of_lt (by rw [hlenA1]; exact hjlen)]
      rw [hlenA1]
    set killed : Organism :=
      { fed1 with energy := fed1.energy + min (prey.energy * (7/10)) (fed1.maxEnergy - fed1.energy) } with hkilled
    have hji2 : j < i ∨ (i < j ∧ i + 1 < s.orgs.length) := by
      by_cases hji : j < i
      · exact Or.inl hji
      · exact Or.inr ⟨by omega, by omega⟩
    rcases reproductionPhase_cases W H obs t.mateRand t.repro killed
      ((s.orgs.set i org1).eraseIdx j) s.nextId with hR | ⟨m, hR⟩ | ⟨m, hR⟩ <;>
      rw [hR] at hcont ⊢ <;> dsimp only at hcont ⊢
    · rcases hji2 with hji | ⟨hij, hlen2⟩
      · rw [decide_eq_true hji] at hcont ⊢
        have hlb := finish_length_lb s (feedPhase org1 s.food).2 1 0 s.nextId
          ((s.orgs.set i org1).eraseIdx j) killed (i - 1) true
        rw [hlenA2] at hlb
        simp only [finish_snd] at hcont ⊢
        simp at hcont ⊢
        omega
      · rw [decide_eq_false (by omega)] at hcont ⊢
        have hlb := finish_length_lb s (feedPhase org1 s.food).2 1 0 s.nextId
          ((s.orgs.set i org1).eraseIdx j) killed i false
        rw [hlenA2] at hlb
        simp only [finish_snd] at hcont ⊢
        simp at hcont ⊢
        omega
    · rcases hji2 with hji | ⟨hij, hlen2⟩
      · rw [decide_eq_true hji] at hcont ⊢
        have hlb := finish_length_lb s (feedPhase org1 s.food).2 1 0 (s.nextId + 1)
          ((s.orgs.set i org1).eraseIdx j) (killed.reproduce m t.repro s.nextId).1 (i - 1) true
        rw [hlenA2] at hlb
        simp only [finish_snd] at hcont ⊢
        simp at hcont ⊢
        omega
      · rw [decide_eq_false (by omega)] at hcont ⊢
        have hlb := finish_length_lb s (feedPhase org1 s.food).2 1 0 (s.nextId + 1)
          ((s.orgs.set i org1).eraseIdx j) (killed.reproduce m t.repro s.nextId).1 i false
        rw [hlenA2] at hlb
        simp only [finish_snd] at hcont ⊢
        simp at hcont ⊢
        omega
    · rcases hji2 with hji | ⟨hij, hlen2⟩
      · rw [decide_eq_true hji] at hcont ⊢
        have hlb := finish_length_lb s (feedPhase org1 s.food).2 1 1 (s.nextId + 1)
          (((s.orgs.set i org1).eraseIdx j) ++ [(killed.reproduce m t.repro s.nextId).2])
          (killed.reproduce m t.repro s.nextId).1 (i - 1) true
        simp only [List.length_append, List.length_cons, List.length_nil, hlenA2] at hlb
        simp only [finish_snd] at hcont ⊢
        simp at hcont ⊢
        omega
      · rw [decide_eq_false (by omega)] at hcont ⊢
        have hlb := finish_length_lb s (feedPhase org1 s.food).2 1 1 (s.nextId + 1)
          (((s.orgs.set i org1).eraseIdx j) ++ [(killed.reproduce m t.repro s.nextId).2])
          (killed.reproduce m t.repro s.nextId).1 i false
        simp only [List.length_append, List.length_cons, List.length_nil, hlenA2] at hlb
        simp only [finish_snd] at hcont ⊢
        simp at hcont ⊢
        omega

/-- Conservation over the whole reverse-index loop. -/
theorem orgLoop_conserve (W H : ℚ) (obs : List Obstacle) (tape : ℕ → StepTape) :
    ∀ (fuel k : ℕ) (s : LoopState) (i : ℕ), i < s.orgs.length → i + 1 ≤ fuel →
      (orgLoop W H obs tape fuel k s i).1.orgs.length +
          (orgLoop W H obs tape fuel k s i).1.deaths + s.births
        = s.orgs.length + s.deaths + (orgLoop W H obs tape fuel k s i).1.births := by
  intro fuel
  induction fuel with
  | zero => intro k s i hi hf; omega
  | succ fuel ih =>
    intro k s i hi hf
    unfold orgLoop
    rw [List.getElem?_eq_getElem hi]
    dsimp only
    have h1 := processIndex_conserve W H obs (tape k) s i hi
    split
    · next hr2 =>
      split
      · next hc =>
        dsimp only
        have hcont : 1 + (if (processIndex W H obs (tape k) s i).2 = true then 1 else 0) ≤ i := by
          rw [hr2]
          simpa using hc
        have hnext := processIndex_next W H obs (tape k) s i hi hcont
        rw [hr2] at hnext
        simp at hnext
        have h2 := ih (k + 1) (processIndex W H obs (tape k) s i).1 (i - 1 - 1)
          (by omega) (by omega)
        omega
      · next hc =>
        dsimp only
        exact h1
    · next hr2 =>
      rw [Bool.not_eq_true] at hr2
      split
      · next hc =>
        dsimp only
        have hcont : 1 + (if (processIndex W H obs (tape k) s i).2 = true then 1 else 0) ≤ i := by
          rw [hr2]
          simpa using hc
        have hnext := processIndex_next W H obs (tape k) s i hi hcont
        rw [hr2] at hnext
        simp at hnext
        have h2 := ih (k + 1) (processIndex W H obs (tape k) s i).1 (i - 1 - 0)
          (by omega) (by omega)
        omega
      · next hc =>
        dsimp only
        exact h1

/-! ### Generic index-list lemmas for the single-processing analysis -/

theorem lt_length_of_some {α : Type} {l : List α} {n : ℕ} {a : α}
    (h : l[n]? = some a) : n < l.length := by
  by_cases hn : n < l.length
  · exact hn
  · rw [List.getElem?_eq_none_iff.mpr (by omega)] at h
    cases h

theorem set_self_of_getElem {l : List ℕ} {i a : ℕ} (h : l[i]? = some a) :
    l.set i a = l := by
  apply List.ext_getElem?_iff.mpr
  intro k
  by_cases hk : i = k
  · subst hk
    rw [List.getElem?_set_self (lt_length_of_some h)]
    exact h.symm
  · rw [List.getElem?_set_ne hk]

theorem map_eraseIdx_comm (l : List Organism) (j : ℕ) :
    orgIds (l.eraseIdx j) = (orgIds l).eraseIdx j := by
  unfold orgIds
  rw [List.eraseIdx_eq_take_drop_succ, List.eraseIdx_eq_take_drop_succ,
    List.map_append, List.map_take, List.map_drop]

theorem orgIds_append_single (l : List Organism) (c : Organism) :
    orgIds (l ++ [c]) = orgIds l ++ [c.ident] := by
  unfold orgIds
  rw [List.map_append]
  rfl

theorem orgIds_set_self {l : List Organism} {i : ℕ} (a : Organism)
    (h : (orgIds l)[i]? = some a.ident) : orgIds (l.set i a) = orgIds l := by
  unfold orgIds
  rw [List.map_set]
  exact set_self_of_getElem h

theorem take_eraseIdx_self (Y : List ℕ) (n : ℕ) :
    (Y.eraseIdx n).take n = Y.take n := by
  apply List.ext_getElem?_iff.mpr
  intro k
  by_cases hk : k < n
  · rw [List.getElem?_take_of_lt hk, List.getElem?_take_of_lt hk,
      List.getElem?_eraseIdx_of_lt _ _ _ hk]
  · rw [List.getElem?_eq_none_iff.mpr
      (le_trans (List.length_take_le _ _) (by omega)),
      List.getElem?_eq_none_iff.mpr
      (le_trans (List.length_take_le _ _) (by omega))]

theorem not_mem_eraseIdx_self {l : List ℕ} (hnd : l.Nodup) {j : ℕ}
    {x : ℕ} (hx : l[j]? = some x) : x ∉ l.eraseIdx j := by
  intro hmem
  have hjl : j < l.length := lt_length_of_some hx
  obtain ⟨k, hk⟩ := List.mem_iff_getElem?.mp hmem
  by_cases hkj : k < j
  · rw [List.getElem?_eraseIdx_of_lt _ _ _ hkj] at hk
    have hkl : k < l.length := lt_length_of_some hk
    rw [List.getElem?_eq_getElem hkl] at hk
    rw [List.getElem?_eq_getElem hjl] at hx
    have hval : l[k] = l[j] := by
      rw [Option.some.inj hk, Option.some.inj hx]
    have := (hnd.getElem_inj_iff).mp hval
    omega
  · rw [List.getElem?_eraseIdx_of_ge _ _ _ (by omega)] at hk
    have hkl : k + 1 < l.length := lt_length_of_some hk
    rw [List.getElem?_eq_getElem hkl] at hk
    rw [List.getElem?_eq_getElem hjl] at hx
    have hval : l[k + 1] = l[j] := by
      rw [Option.some.inj hk, Option.some.inj hx]
    have := (hnd.getElem_inj_iff).mp hval
    omega

theorem getElem_not_mem_take {l : List ℕ} (hnd : l.Nodup) {i x : ℕ}
    (hx : l[i]? = some x) : x ∉ l.take i := by
  intro hmem
  have hil : i < l.length := lt_length_of_some hx
  obtain ⟨k, hk⟩ := List.mem_iff_getElem?.mp hmem
  have hkt : k < (l.take i).length := lt_length_of_some hk
  have hki : k < i := by
    have := List.length_take_le i l
    omega
  rw [List.getElem?_take_of_lt hki] at hk
  have hkl : k < l.length := lt_length_of_some hk
  rw [List.getElem?_eq_getElem hkl] at hk
  rw [List.getElem?_eq_getElem hil] at hx
  have hval : l[k] = l[i] := by
    rw [Option.some.inj hk, Option.some.inj hx]
  have := (hnd.getElem_inj_iff).mp hval
  omega

theorem mem_take_of_getElem {l : List ℕ} {k m x : ℕ} (hk : k < m)
    (h : l[k]? = some x) : x ∈ l.take m := by
  apply List.mem_iff_getElem?.mpr
  exact ⟨k, by rw [List.getElem?_take_of_lt hk]; exact h⟩

theorem mem_take_elim {l : List ℕ} {m x : ℕ} (h : x ∈ l.take m) :
    ∃ k, k < m ∧ l[k]? = some x := by
  obtain ⟨k, hk⟩ := List.mem_iff_getElem?.mp h
  have hkt : k < (l.take m).length := lt_length_of_some hk
  have hkm : k < m := by
    have := List.length_take_le m l
    omega
  rw [List.getElem?_take_of_lt hkm] at hk
  exact ⟨k, hkm, hk⟩

theorem cover_step {ids0 F : List ℕ} {i i1 v : ℕ} (hv0 : ids0[i]? = some v)
    (hcov : ∀ x ∈ ids0.take i, x ∈ F.take i1 ∨ x ∉ F) :
    ∀ x ∈ ids0.take (i + 1), x = v ∨ x ∈ F.take i1 ∨ x ∉ F := by
  intro x hx
  obtain ⟨k, hki, hk⟩ := mem_take_elim hx
  by_cases hke : k = i
  · subst hke
    left
    rw [hv0] at hk
    exact (Option.some.inj hk).symm
  · right
    exact hcov x (mem_take_of_getElem (by omega) hk)

theorem mid_kill_below {ids0 : List ℕ} {i j : ℕ} (hnd : ids0.Nodup)
    (hj : j < i) (hi : i < ids0.length) :
    (∀ x ∈ (ids0.eraseIdx j).take (i - 1), x ∈ ids0.take i) ∧
    (∀ x ∈ ids0.take i,
      x ∈ (ids0.eraseIdx j).take (i - 1) ∨ x ∉ ids0.eraseIdx j) := by
  constructor
  · intro x hx
    obtain ⟨k, hki, hk⟩ := mem_take_elim hx
    by_cases hkj : k < j
    · rw [List.getElem?_eraseIdx_of_lt _ _ _ hkj] at hk
      exact mem_take_of_getElem (by omega) hk
    · rw [List.getElem?_eraseIdx_of_ge _ _ _ (by omega)] at hk
      exact mem_take_of_getElem (by omega) hk
  · intro x hx
    obtain ⟨k, hki, hk⟩ := mem_take_elim hx
    by_cases hkj : k = j
    · subst hkj
      exact Or.inr (not_mem_eraseIdx_self hnd hk)
    · left
      by_cases hkj2 : k < j
      · have h1 : (ids0.eraseIdx j)[k]? = some x := by
          rw [List.getElem?_eraseIdx_of_lt _ _ _ hkj2]
          exact hk
        exact mem_take_of_getElem (by omega) h1
      · have h1 : (ids0.eraseIdx j)[k - 1]? = some x := by
          rw [List.getElem?_eraseIdx_of_ge _ _ _ (by omega)]
          have hke : k - 1 + 1 = k := by omega
          rw [hke]
          exact hk
        exact mem_take_of_getElem (by omega) h1

theorem mid_kill_above (ids0 : List ℕ) {i j : ℕ}
    (hij : i < j) :
    (∀ x ∈ (ids0.eraseIdx j).take i, x ∈ ids0.take i) ∧
    (∀ x ∈ ids0.take i,
      x ∈ (ids0.eraseIdx j).take i ∨ x ∉ ids0.eraseIdx j) := by
  constructor
  · intro x hx
    obtain ⟨k, hki, hk⟩ := mem_take_elim hx
    rw [List.getElem?_eraseIdx_of_lt _ _ _ (by omega)] at hk
    exact mem_take_of_getElem hki hk
  · intro x hx
    obtain ⟨k, hki, hk⟩ := mem_take_elim hx
    left
    have h1 : (ids0.eraseIdx j)[k]? = some x := by
      rw [List.getElem?_eraseIdx_of_lt _ _ _ (by omega)]
      exact hk
    exact mem_take_of_getElem hki h1

theorem fin_nochild (ids0 ids1 F : List ℕ) (i i1 : ℕ)
    (hm1 : ids1.Nodup)
    (hm2 : ∀ x ∈ ids1, x ∈ ids0)
    (hm3 : ∀ x ∈ ids1.take i1, x ∈ ids0.take i)
    (hm4 : ∀ x ∈ ids0.take i, x ∈ ids1.take i1 ∨ x ∉ ids1)
    (hF : F = ids1 ∨ F = ids1.eraseIdx i1) :
    F.Nodup ∧ (∀ x ∈ F, x ∈ ids0) ∧
    (∀ x ∈ F.take i1, x ∈ ids0.take i) ∧
    (∀ x ∈ ids0.take i, x ∈ F.take i1 ∨ x ∉ F) ∧
    (∀ x, x ∉ ids1 → x ∉ F) := by
  rcases hF with rfl | rfl
  · exact ⟨hm1, hm2, hm3, hm4, fun x hx => hx⟩
  · refine ⟨hm1.eraseIdx i1, ?_, ?_, ?_, ?_⟩
    · intro x hx
      exact hm2 x (List.mem_of_mem_eraseIdx hx)
    · intro x hx
      rw [take_eraseIdx_self] at hx
      exact hm3 x hx
    · intro x hx
      rcases hm4 x hx with h | h
      · left
        rw [take_eraseIdx_self]
        exact h
      · right
        intro hc
        exact h (List.mem_of_mem_eraseIdx hc)
    · intro x hx hc
      exact hx (List.mem_of_mem_eraseIdx hc)

theorem fin_child (ids0 ids1 F : List ℕ) (i i1 nid : ℕ)
    (hm1 : ids1.Nodup)
    (hm2 : ∀ x ∈ ids1, x ∈ ids0)
    (hm3 : ∀ x ∈ ids1.take i1, x ∈ ids0.take i)
    (hm4 : ∀ x ∈ ids0.take i, x ∈ ids1.take i1 ∨ x ∉ ids1)
    (hm5 : i1 ≤ ids1.length)
    (hbd : ∀ x ∈ ids0, x < nid)
    (hF : F = ids1 ++ [nid] ∨ F = (ids1 ++ [nid]).eraseIdx i1) :
    F.Nodup ∧ (∀ x ∈ F, x ∈ ids0 ∨ x = nid) ∧
    (∀ x ∈ F.take i1, x ∈ ids0.take i) ∧
    (∀ x ∈ ids0.take i, x ∈ F.take i1 ∨ x ∉ F) ∧
    (∀ x, x ∉ ids1 → x ≠ nid → x ∉ F) := by
  have hnin : nid ∉ ids1 := fun hc => absurd (hbd nid (hm2 nid hc)) (lt_irrefl nid)
  have hndA : (ids1 ++ [nid]).Nodup := by
    rw [List.nodup_append]
    refine ⟨hm1, List.nodup_singleton nid, ?_⟩
    intro a ha hb
    rw [List.mem_singleton] at hb
    subst hb
    exact hnin ha
  have htake : (ids1 ++ [nid]).take i1 = ids1.take i1 :=
    List.take_append_of_le_length hm5
  have hmemA : ∀ x, x ∈ ids1 ++ [nid] → x ∈ ids1 ∨ x = nid := by
    intro x hx
    rcases List.mem_append.mp hx with h | h
    · exact Or.inl h
    · exact Or.inr (List.mem_singleton.mp h)
  rcases hF with rfl | rfl
  · refine ⟨hndA, ?_, ?_, ?_, ?_⟩
    · intro x hx
      rcases hmemA x hx with h | h
      · exact Or.inl (hm2 x h)
      · exact Or.inr h
    · intro x hx
      rw [htake] at hx
      exact hm3 x hx
    · intro x hx
      rcases hm4 x hx with h | h
      · left
        rw [htake]
        exact h
      · right
        intro hc
        rcases hmemA x hc with h2 | h2
        · exact h h2
        · subst h2
          exact absurd (hbd x (List.mem_of_mem_take hx)) (lt_irrefl x)
    · intro x hx hne hc
      rcases hmemA x hc with h2 | h2
      · exact hx h2
      · exact hne h2
  · refine ⟨hndA.eraseIdx i1, ?_, ?_, ?_, ?_⟩
    · intro x hx
      rcases hmemA x (List.mem_of_mem_eraseIdx hx) with h | h
      · exact Or.inl (hm2 x h)
      · exact Or.inr h
    · intro x hx
      rw [take_eraseIdx_self, htake] at hx
      exact hm3 x hx
    · intro x hx
      rcases hm4 x hx with h | h
      · left
        rw [take_eraseIdx_self, htake]
        exact h
      · right
        intro hc
        rcases hmemA x (List.mem_of_mem_eraseIdx hc) with h2 | h2
        · exact h h2
        · subst h2
          exact absurd (hbd x (List.mem_of_mem_take hx)) (lt_irrefl x)
    · intro x hx hne hc
      rcases hmemA x (List.mem_of_mem_eraseIdx hc) with h2 | h2
      · exact hx h2
      · exact hne h2

theorem finish_orgs_dead (s : LoopState) (food2 : List Food) (dInc bInc nid : ℕ)
    (orgsC : List Organism) (org4 : Organism) (i' : ℕ) (dec : Bool)
    (hd : org4.isDead) :
    (finishIndex s food2 dInc bInc nid orgsC org4 i' dec).1.orgs = orgsC.eraseIdx i' := by
  unfold finishIndex
  rw [if_pos hd]

theorem finish_orgs_alive (s : LoopState) (food2 : List Food) (dInc bInc nid : ℕ)
    (orgsC : List Organism) (org4 : Organism) (i' : ℕ) (dec : Bool)
    (hd : ¬ org4.isDead) :
    (finishIndex s food2 dInc bInc nid orgsC org4 i' dec).1.orgs = orgsC.set i' org4 := by
  unfold finishIndex
  rw [if_neg hd]

theorem finish_nid (s : LoopState) (food2 : List Food) (dInc bInc nid : ℕ)
    (orgsC : List Organism) (org4 : Organism) (i' : ℕ) (dec : Bool) :
    (finishIndex s food2 dInc bInc nid orgsC org4 i' dec).1.nextId = nid := by
  unfold finishIndex
  split <;> rfl

/-- Identifier bookkeeping of one index step: identifiers stay distinct
and bounded by the fresh counter, the counter is monotone, the unprocessed
region only loses identifiers, each identifier of the old region up to `i`
is the processed one, still in the new region, or gone from the whole
collection, and absent identifiers stay absent. -/
theorem processIndex_log (W H : ℚ) (obs : List Obstacle) (t : StepTape)
    (s : LoopState) (i : ℕ) (hi : i < s.orgs.length)
    (hnd : (orgIds s.orgs).Nodup) (hbd : ∀ x ∈ orgIds s.orgs, x < s.nextId) :
    (orgIds (processIndex W H obs t s i).1.orgs).Nodup ∧
    (∀ x ∈ orgIds (processIndex W H obs t s i).1.orgs,
      x < (processIndex W H obs t s i).1.nextId) ∧
    s.nextId ≤ (processIndex W H obs t s i).1.nextId ∧
    (∀ x ∈ (orgIds (processIndex W H obs t s i).1.orgs).take
        (i - (if (processIndex W H obs t s i).2 = true then 1 else 0)),
      x ∈ (orgIds s.orgs).take i) ∧
    (∀ x ∈ (orgIds s.orgs).take (i + 1),
      x = s.orgs[i].ident ∨
      x ∈ (orgIds (processIndex W H obs t s i).1.orgs).take
        (i - (if (processIndex W H obs t s i).2 = true then 1 else 0)) ∨
      x ∉ orgIds (processIndex W H obs t s i).1.orgs) ∧
    (∀ x, x ∉ orgIds s.orgs → x < s.nextId →
      x ∉ orgIds (processIndex W H obs t s i).1.orgs) := by
  unfold processIndex
  rw [List.getElem?_eq_getElem hi]
  dsimp only
  set org1 := (s.orgs[i].updateAI s.orgs s.food t.jx t.jy).update W H obs with horg1
  set fed1 := (feedPhase org1 s.food).1 with hfed1
  have hid1 : org1.ident = s.orgs[i].ident := by
    rw [horg1]
    exact ((update_spec _ W H obs).1).trans ((updateAI_sameBody _ _ _ _ _).1)
  have hfid : fed1.ident = s.orgs[i].ident := by
    rw [hfed1]
    exact ((feedPhase_fields org1 s.food).1).trans hid1
  have hv0 : (orgIds s.orgs)[i]? = some (s.orgs[i].ident) := by
    unfold orgIds
    rw [List.getElem?_map, List.getElem?_eq_getElem hi]
    rfl
  have hlen0 : (orgIds s.orgs).length = s.orgs.length := List.length_map _ _
  have hA1 : orgIds (s.orgs.set i org1) = orgIds s.orgs :=
    orgIds_set_self org1 (by rw [hid1]; exact hv0)
  have hiI : i < (orgIds s.orgs).length := by rw [hlen0]; exact hi
  rcases predationStep_cases fed1 (s.orgs.set i org1) i with hP |
    ⟨j, prey, hfk, hjlen, hjne, hP⟩
  · rw [hP]
    dsimp only
    have hif : (if (false : Bool) then i - 1 else i) = i := rfl
    rw [hif]
    rcases reproductionPhase_cases W H obs t.mateRand t.repro fed1
      (s.orgs.set i org1) s.nextId with hR | ⟨m, hR⟩ | ⟨m, hR⟩ <;>
      rw [hR] <;> dsimp only <;> rw [finish_snd, finish_nid] <;>
      simp only [Bool.false_eq_true, if_false, Nat.sub_zero]
    · have hforgs : ∃ F, orgIds (finishIndex s (feedPhase org1 s.food).2 0 0
          s.nextId (s.orgs.set i org1) fed1 i false).1.orgs = F ∧
          (F = orgIds s.orgs ∨ F = (orgIds s.orgs).eraseIdx i) := by
        by_cases hd : fed1.isDead
        · exact ⟨_, by
            rw [finish_orgs_dead _ _ _ _ _ _ _ _ _ hd, map_eraseIdx_comm, hA1], Or.inr rfl⟩
        · refine ⟨orgIds s.orgs, ?_, Or.inl rfl⟩
          rw [finish_orgs_alive _ _ _ _ _ _ _ _ _ hd]
          rw [orgIds_set_self fed1 (by rw [hA1, hfid]; exact hv0)]
          exact hA1
      obtain ⟨F, hE, hFd⟩ := hforgs
      rw [hE]
      have hfin := fin_nochild (orgIds s.orgs) (orgIds s.orgs) F i i hnd
        (fun x hx => hx) (fun x hx => hx) (fun x hx => Or.inl hx) hFd
      refine ⟨hfin.1, ?_, le_refl _, hfin.2.2.1, cover_step hv0 hfin.2.2.2.1, ?_⟩
      · intro x hx
        exact hbd x (hfin.2.1 x hx)
      · intro x hx hlt
        exact hfin.2.2.2.2 x hx
    · have hpid : (fed1.reproduce m t.repro s.nextId).1.ident = s.orgs[i].ident :=
        ((reproduce_fst_fields fed1 m t.repro s.nextId).1).trans hfid
      have hforgs : ∃ F, orgIds (finishIndex s (feedPhase org1 s.food).2 0 0
          (s.nextId + 1) (s.orgs.set i org1) (fed1.reproduce m t.repro s.nextId).1
          i false).1.orgs = F ∧
          (F = orgIds s.orgs ∨ F = (orgIds s.orgs).eraseIdx i) := by
        by_cases hd : (fed1.reproduce m t.repro s.nextId).1.isDead
        · exact ⟨_, by
            rw [finish_orgs_dead _ _ _ _ _ _ _ _ _ hd, map_eraseIdx_comm, hA1], Or.inr rfl⟩
        · refine ⟨orgIds s.orgs, ?_, Or.inl rfl⟩
          rw [finish_orgs_alive _ _ _ _ _ _ _ _ _ hd]
          rw [orgIds_set_self _ (by rw [hA1, hpid]; exact hv0)]
          exact hA1
      obtain ⟨F, hE, hFd⟩ := hforgs
      rw [hE]
      have hfin := fin_nochild (orgIds s.orgs) (orgIds s.orgs) F i i hnd
        (fun x hx => hx) (fun x hx => hx) (fun x hx => Or.inl hx) hFd
      refine ⟨hfin.1, ?_, Nat.le_succ _, hfin.2.2.1, cover_step hv0 hfin.2.2.2.1, ?_⟩
      · intro x hx
        exact Nat.lt_succ_of_lt (hbd x (hfin.2.1 x hx))
      · intro x hx hlt
        exact hfin.2.2.2.2 x hx
    · have hpid : (fed1.reproduce m t.repro s.nextId).1.ident = s.orgs[i].ident :=
        ((reproduce_fst_fields fed1 m t.repro s.nextId).1).trans hfid
      have hcid : (fed1.reproduce m t.repro s.nextId).2.ident = s.nextId :=
        (reproduce_child_spec fed1 m t.repro s.nextId).1
      have hCids : orgIds ((s.orgs.set i org1) ++ [(fed1.reproduce m t.repro s.nextId).2])
          = orgIds s.orgs ++ [s.nextId] := by
        rw [orgIds_append_single, hA1, hcid]
      have hvC : (orgIds s.orgs ++ [s.nextId])[i]? = some (s.orgs[i].ident) := by
        rw [List.getElem?_append_left hiI]
        exact hv0
      have hforgs : ∃ F, orgIds (finishIndex s (feedPhase org1 s.food).2 0 1
          (s.nextId + 1)
          ((s.orgs.set i org1) ++ [(fed1.reproduce m t.repro s.nextId).2])
          (fed1.reproduce m t.repro s.nextId).1 i false).1.orgs = F ∧
          (F = orgIds s.orgs ++ [s.nextId] ∨
            F = (orgIds s.orgs ++ [s.nextId]).eraseIdx i) := by
        by_cases hd : (fed1.reproduce m t.repro s.nextId).1.isDead
        · exact ⟨_, by
            rw [finish_orgs_dead _ _ _ _ _ _ _ _ _ hd, map_eraseIdx_comm, hCids], Or.inr rfl⟩
        · refine ⟨_, ?_, Or.inl rfl⟩
          rw [finish_orgs_alive _ _ _ _ _ _ _ _ _ hd]
          rw [orgIds_set_self _ (by rw [hCids, hpid]; exact hvC)]
          exact hCids
      obtain ⟨F, hE, hFd⟩ := hforgs
      rw [hE]
      have hfin := fin_child (orgIds s.orgs) (orgIds s.orgs) F i i s.nextId hnd
        (fun x hx => hx) (fun x hx => hx) (fun x hx => Or.inl hx) (by omega) hbd hFd
      refine ⟨hfin.1, ?_, Nat.le_succ _, hfin.2.2.1, cover_step hv0 hfin.2.2.2.1, ?_⟩
      · intro x hx
        rcases hfin.2.1 x hx with h | h
        · exact Nat.lt_succ_of_lt (hbd x h)
        · rw [h]
          exact Nat.lt_succ_self _
      · intro x hx hlt
        exact hfin.2.2.2.2 x hx (Nat.ne_of_lt hlt)
  · rw [hP]
    dsimp only
    simp only [List.length_set] at hjlen
    set killed : Organism :=
      { fed1 with energy := fed1.energy + min (prey.energy * (7/10)) (fed1.maxEnergy - fed1.energy) } with hkilled
    have hkid : killed.ident = s.orgs[i].ident := by
      rw [hkilled]
      exact hfid
    have hEids : orgIds ((s.orgs.set i org1).eraseIdx j) = (orgIds s.orgs).eraseIdx j := by
      rw [map_eraseIdx_comm, hA1]
    have hjlI : j < (orgIds s.orgs).length := by rw [hlen0]; exact hjlen
    have hnd1 : ((orgIds s.orgs).eraseIdx j).Nodup := hnd.eraseIdx j
    have hsub1 : ∀ x ∈ (orgIds s.orgs).eraseIdx j, x ∈ orgIds s.orgs :=
      fun x hx => List.mem_of_mem_eraseIdx hx
    have hlen1 : ((orgIds s.orgs).eraseIdx j).length = (orgIds s.orgs).length - 1 :=
      List.length_eraseIdx_of_lt hjlI
    by_cases hji : j < i
    · simp only [decide_eq_true hji, if_true]
      have hmid := mid_kill_below hnd hji hiI
      have hvE : ((orgIds s.orgs).eraseIdx j)[i - 1]? = some (s.orgs[i].ident) := by
        rw [List.getElem?_eraseIdx_of_ge _ _ _ (by omega)]
        have h11 : i - 1 + 1 = i := by omega
        rw [h11]
        exact hv0
      rcases reproductionPhase_cases W H obs t.mateRand t.repro killed
        ((s.orgs.set i org1).eraseIdx j) s.nextId with hR | ⟨m, hR⟩ | ⟨m, hR⟩ <;>
        rw [hR] <;> dsimp only <;> rw [finish_snd, finish_nid] <;>
        simp only [decide_eq_true hji, if_true]
      · have hforgs : ∃ F, orgIds (finishIndex s (feedPhase org1 s.food).2 1 0
            s.nextId ((s.orgs.set i org1).eraseIdx j) killed (i - 1) true).1.orgs = F ∧
            (F = (orgIds s.orgs).eraseIdx j ∨
              F = ((orgIds s.orgs).eraseIdx j).eraseIdx (i - 1)) := by
          by_cases hd : killed.isDead
          · exact ⟨_, by
              rw [finish_orgs_dead _ _ _ _ _ _ _ _ _ hd, map_eraseIdx_comm, hEids], Or.inr rfl⟩
          · refine ⟨_, ?_, Or.inl rfl⟩
            rw [finish_orgs_alive _ _ _ _ _ _ _ _ _ hd]
            rw [orgIds_set_self _ (by rw [hEids, hkid]; exact hvE)]
            exact hEids
        obtain ⟨F, hE, hFd⟩ := hforgs
        rw [hE]
        have hfin := fin_nochild (orgIds s.orgs) ((orgIds s.orgs).eraseIdx j) F i (i - 1)
          hnd1 hsub1 hmid.1 hmid.2 hFd
        refine ⟨hfin.1, ?_, le_refl _, hfin.2.2.1, cover_step hv0 hfin.2.2.2.1, ?_⟩
        · intro x hx
          exact hbd x (hfin.2.1 x hx)
        · intro x hx hlt
          exact hfin.2.2.2.2 x (fun hc => hx (hsub1 x hc))
      · have hpid : (killed.reproduce m t.repro s.nextId).1.ident = s.orgs[i].ident :=
          ((reproduce_fst_fields killed m t.repro s.nextId).1).trans hkid
        have hforgs : ∃ F, orgIds (finishIndex s (feedPhase org1 s.food).2 1 0
            (s.nextId + 1) ((s.orgs.set i org1).eraseIdx j)
            (killed.reproduce m t.repro s.nextId).1 (i - 1) true).1.orgs = F ∧
            (F = (orgIds s.orgs).eraseIdx j ∨
              F = ((orgIds s.orgs).eraseIdx j).eraseIdx (i - 1)) := by
          by_cases hd : (killed.reproduce m t.repro s.nextId).1.isDead
          · exact ⟨_, by
              rw [finish_orgs_dead _ _ _ _ _ _ _ _ _ hd, map_eraseIdx_comm, hEids], Or.inr rfl⟩
          · refine ⟨_, ?_, Or.inl rfl⟩
            rw [finish_orgs_alive _ _ _ _ _ _ _ _ _ hd]
            rw [orgIds_set_self _ (by rw [hEids, hpid]; exact hvE)]
            exact hEids
        obtain ⟨F, hE, hFd⟩ := hforgs
        rw [hE]
        have hfin := fin_nochild (orgIds s.orgs) ((orgIds s.orgs).eraseIdx j) F i (i - 1)
          hnd1 hsub1 hmid.1 hmid.2 hFd
        refine ⟨hfin.1, ?_, Nat.le_succ _, hfin.2.2.1, cover_step hv0 hfin.2.2.2.1, ?_⟩
        · intro x hx
          exact Nat.lt_succ_of_lt (hbd x (hfin.2.1 x hx))
        · intro x hx hlt
          exact hfin.2.2.2.2 x (fun hc => hx (hsub1 x hc))
      · have hpid : (killed.reproduce m t.repro s.nextId).1.ident = s.orgs[i].ident :=
          ((reproduce_fst_fields killed m t.repro s.nextId).1).trans hkid
        have hcid : (killed.reproduce m t.repro s.nextId).2.ident = s.nextId :=
          (reproduce_child_spec killed m t.repro s.nextId).1
        have hCids : orgIds (((s.orgs.set i org1).eraseIdx j) ++
            [(killed.reproduce m t.repro s.nextId).2])
            = (orgIds s.orgs).eraseIdx j ++ [s.nextId] := by
          rw [orgIds_append_single, hEids, hcid]
        have hvC : ((orgIds s.orgs).eraseIdx j ++ [s.nextId])[i - 1]? =
            some (s.orgs[i].ident) := by
          rw [List.getElem?_append_left (by omega)]
          exact hvE
        have hforgs : ∃ F, orgIds (finishIndex s (feedPhase org1 s.food).2 1 1
            (s.nextId + 1) (((s.orgs.set i org1).eraseIdx j) ++
              [(killed.reproduce m t.repro s.nextId).2])
            (killed.reproduce m t.repro s.nextId).1 (i - 1) true).1.orgs = F ∧
            (F = (orgIds s.orgs).eraseIdx j ++ [s.nextId] ∨
              F = ((orgIds s.orgs).eraseIdx j ++ [s.nextId]).eraseIdx (i - 1)) := by
          by_cases hd : (killed.reproduce m t.repro s.nextId).1.isDead
          · exact ⟨_, by
              rw [finish_orgs_dead _ _ _ _ _ _ _ _ _ hd, map_eraseIdx_comm, hCids], Or.inr rfl⟩
          · refine ⟨_, ?_, Or.inl rfl⟩
            rw [finish_orgs_alive _ _ _ _ _ _ _ _ _ hd]
            rw [orgIds_set_self _ (by rw [hCids, hpid]; exact hvC)]
            exact hCids
        obtain ⟨F, hE, hFd⟩ := hforgs
        rw [hE]
        have hfin := fin_child (orgIds s.orgs) ((orgIds s.orgs).eraseIdx j) F i (i - 1)
          s.nextId hnd1 hsub1 hmid.1 hmid.2 (by omega) hbd hFd
        refine ⟨hfin.1, ?_, Nat.le_succ _, hfin.2.2.1, cover_step hv0 hfin.2.2.2.1, ?_⟩
        · intro x hx
          rcases hfin.2.1 x hx with h | h
          · exact Nat.lt_succ_of_lt (hbd x h)
          · rw [h]
            exact Nat.lt_succ_self _
        · intro x hx hlt
          exact hfin.2.2.2.2 x (fun hc => hx (hsub1 x hc)) (Nat.ne_of_lt hlt)
    · have hij : i < j := by omega
      simp only [decide_eq_false hji, Bool.false_eq_true, if_false]
      have hmid := mid_kill_above (orgIds s.orgs) hij
      have hvE : ((orgIds s.orgs).eraseIdx j)[i]? = some (s.orgs[i].ident) := by
        rw [List.getElem?_eraseIdx_of_lt _ _ _ hij]
        exact hv0
      rcases reproductionPhase_cases W H obs t.mateRand t.repro killed
        ((s.orgs.set i org1).eraseIdx j) s.nextId with hR | ⟨m, hR⟩ | ⟨m, hR⟩ <;>
        rw [hR] <;> dsimp only <;> rw [finish_snd, finish_nid] <;>
        simp only [decide_eq_false hji, Bool.false_eq_true, if_false, Nat.sub_zero]
      · have hforgs : ∃ F, orgIds (finishIndex s (feedPhase org1 s.food).2 1 0
            s.nextId ((s.orgs.set i org1).eraseIdx j) killed i false).1.orgs = F ∧
            (F = (orgIds s.orgs).eraseIdx j ∨
              F = ((orgIds s.orgs).eraseIdx j).eraseIdx i) := by
          by_cases hd : killed.isDead
          · exact ⟨_, by
              rw [finish_orgs_dead _ _ _ _ _ _ _ _ _ hd, map_eraseIdx_comm, hEids], Or.inr rfl⟩
          · refine ⟨_, ?_, Or.inl rfl⟩
            rw [finish_orgs_alive _ _ _ _ _ _ _ _ _ hd]
            rw [orgIds_set_self _ (by rw [hEids, hkid]; exact hvE)]
            exact hEids
        obtain ⟨F, hE, hFd⟩ := hforgs
        rw [hE]
        have hfin := fin_nochild (orgIds s.orgs) ((orgIds s.orgs).eraseIdx j) F i i
          hnd1 hsub1 hmid.1 hmid.2 hFd
        refine ⟨hfin.1, ?_, le_refl _, hfin.2.2.1, cover_step hv0 hfin.2.2.2.1, ?_⟩
        · intro x hx
          exact hbd x (hfin.2.1 x hx)
        · intro x hx hlt
          exact hfin.2.2.2.2 x (fun hc => hx (hsub1 x hc))
      · have hpid : (killed.reproduce m t.repro s.nextId).1.ident = s.orgs[i].ident :=
          ((reproduce_fst_fields killed m t.repro s.nextId).1).trans hkid
        have hforgs : ∃ F, orgIds (finishIndex s (feedPhase org1 s.food).2 1 0
            (s.nextId + 1) ((s.orgs.set i org1).eraseIdx j)
            (killed.reproduce m t.repro s.nextId).1 i false).1.orgs = F ∧
            (F = (orgIds s.orgs).eraseIdx j ∨
              F = ((orgIds s.orgs).eraseIdx j).eraseIdx i) := by
          by_cases hd : (killed.reproduce m t.repro s.nextId).1.isDead
          · exact ⟨_, by
              rw [finish_orgs_dead _ _ _ _ _ _ _ _ _ hd, map_eraseIdx_comm, hEids], Or.inr rfl⟩
          · refine ⟨_, ?_, Or.inl rfl⟩
            rw [finish_orgs_alive _ _ _ _ _ _ _ _ _ hd]
            rw [orgIds_set_self _ (by rw [hEids, hpid]; exact hvE)]
            exact hEids
        obtain ⟨F, hE, hFd⟩ := hforgs
        rw [hE]
        have hfin := fin_nochild (orgIds s.orgs) ((orgIds s.orgs).eraseIdx j) F i i
          hnd1 hsub1 hmid.1 hmid.2 hFd
        refine ⟨hfin.1, ?_, Nat.le_succ _, hfin.2.2.1, cover_step hv0 hfin.2.2.2.1, ?_⟩
        · intro x hx
          exact Nat.lt_succ_of_lt (hbd x (hfin.2.1 x hx))
        · intro x hx hlt
          exact hfin.2.2.2.2 x (fun hc => hx (hsub1 x hc))
      · have hpid : (killed.reproduce m t.repro s.nextId).1.ident = s.orgs[i].ident :=
          ((reproduce_fst_fields killed m t.repro s.nextId).1).trans hkid
        have hcid : (killed.reproduce m t.repro s.nextId).2.ident = s.nextId :=
          (reproduce_child_spec killed m t.repro s.nextId).1
        have hCids : orgIds (((s.orgs.set i org1).eraseIdx j) ++
            [(killed.reproduce m t.repro s.nextId).2])
            = (orgIds s.orgs).eraseIdx j ++ [s.nextId] := by
          rw [orgIds_append_single, hEids, hcid]
        have hvC : ((orgIds s.orgs).eraseIdx j ++ [s.nextId])[i]? =
            some (s.orgs[i].ident) := by
          rw [List.getElem?_append_left (by omega)]
          exact hvE
        have hforgs : ∃ F, orgIds (finishIndex s (feedPhase org1 s.food).2 1 1
            (s.nextId + 1) (((s.orgs.set i org1).eraseIdx j) ++
              [(killed.reproduce m t.repro s.nextId).2])
            (killed.reproduce m t.repro s.nextId).1 i false).1.orgs = F ∧
            (F = (orgIds s.orgs).eraseIdx j ++ [s.nextId] ∨
              F = ((orgIds s.orgs).eraseIdx j ++ [s.nextId]).eraseIdx i) := by
          by_cases hd : (killed.reproduce m t.repro s.nextId).1.isDead
          · exact ⟨_, by
              rw [finish_orgs_dead _ _ _ _ _ _ _ _ _ hd, map_eraseIdx_comm, hCids], Or.inr rfl⟩
          · refine ⟨_, ?_, Or.inl rfl⟩
            rw [finish_orgs_alive _ _ _ _ _ _ _ _ _ hd]
            rw [orgIds_set_self _ (by rw [hCids, hpid]; exact hvC)]
            exact hCids
        obtain ⟨F, hE, hFd⟩ := hforgs
        rw [hE]
        have hfin := fin_child (orgIds s.orgs) ((orgIds s.orgs).eraseIdx j) F i i
          s.nextId hnd1 hsub1 hmid.1 hmid.2 (by omega) hbd hFd
        refine ⟨hfin.1, ?_, Nat.le_succ _, hfin.2.2.1, cover_step hv0 hfin.2.2.2.1, ?_⟩
        · intro x hx
          rcases hfin.2.1 x hx with h | h
          · exact Nat.lt_succ_of_lt (hbd x h)
          · rw [h]
            exact Nat.lt_succ_self _
        · intro x hx hlt
          exact hfin.2.2.2.2 x (fun hc => hx (hsub1 x hc)) (Nat.ne_of_lt hlt)

theorem orgLoop_absent (W H : ℚ) (obs : List Obstacle) (tape : ℕ → StepTape) :
    ∀ (fuel k : ℕ) (s : LoopState) (i x : ℕ),
      (orgIds s.orgs).Nodup → (∀ y ∈ orgIds s.orgs, y < s.nextId) →
      x ∉ orgIds s.orgs → x < s.nextId →
      x ∉ orgIds (orgLoop W H obs tape fuel k s i).1.orgs := by
  intro fuel
  induction fuel with
  | zero => intro k s i x hnd hbd hx hlt; exact hx
  | succ fuel ih =>
    intro k s i x hnd hbd hx hlt
    unfold orgLoop
    cases hg : s.orgs[i]? with
    | none => exact hx
    | some org =>
      dsimp only
      have hi : i < s.orgs.length := lt_length_of_some hg
      have hlog := processIndex_log W H obs (tape k) s i hi hnd hbd
      split <;> split <;>
        first
          | exact ih (k + 1) _ _ x hlog.1 hlog.2.1 (hlog.2.2.2.2.2 x hx hlt)
              (lt_of_lt_of_le hlt hlog.2.2.1)
          | exact hlog.2.2.2.2.2 x hx hlt

theorem orgLoop_log (W H : ℚ) (obs : List Obstacle) (tape : ℕ → StepTape) :
    ∀ (fuel k : ℕ) (s : LoopState) (i : ℕ),
      i < s.orgs.length → i + 1 ≤ fuel →
      (orgIds s.orgs).Nodup → (∀ y ∈ orgIds s.orgs, y < s.nextId) →
      (orgLoop W H obs tape fuel k s i).2.Nodup ∧
      (∀ x ∈ (orgLoop W H obs tape fuel k s i).2,
        x ∈ (orgIds s.orgs).take (i + 1)) ∧
      (∀ x ∈ (orgIds s.orgs).take (i + 1),
        x ∈ (orgLoop W H obs tape fuel k s i).2 ∨
        x ∉ orgIds (orgLoop W H obs tape fuel k s i).1.orgs) := by
  intro fuel
  induction fuel with
  | zero => intro k s i hi hf hnd hbd; exact absurd hf (by omega)
  | succ fuel ih =>
    intro k s i hi hf hnd hbd
    unfold orgLoop
    rw [List.getElem?_eq_getElem hi]
    dsimp only
    have hlog := processIndex_log W H obs (tape k) s i hi hnd hbd
    have hv0 : (orgIds s.orgs)[i]? = some (s.orgs[i].ident) := by
      unfold orgIds
      rw [List.getElem?_map, List.getElem?_eq_getElem hi]
      rfl
    have hvtake : s.orgs[i].ident ∈ (orgIds s.orgs).take (i + 1) :=
      mem_take_of_getElem (by omega) hv0
    have hvnot : s.orgs[i].ident ∉ (orgIds s.orgs).take i :=
      getElem_not_mem_take hnd hv0
    split
    · next hr2 =>
      rw [hr2] at hlog
      simp only [if_true] at hlog
      split
      · next hc =>
        dsimp only
        have hcont : 1 + (if (processIndex W H obs (tape k) s i).2 = true then 1 else 0) ≤ i := by
          rw [hr2]
          simpa using hc
        have hnext := processIndex_next W H obs (tape k) s i hi hcont
        rw [hr2] at hnext
        simp at hnext
        have hih := ih (k + 1) (processIndex W H obs (tape k) s i).1 (i - 1 - 1)
          (by omega) (by omega) hlog.1 hlog.2.1
        have hidx : i - 1 - 1 + 1 = i - 1 := by omega
        rw [hidx] at hih
        refine ⟨?_, ?_, ?_⟩
        · refine List.nodup_cons.mpr ⟨?_, hih.1⟩
          intro hmem
          exact hvnot (hlog.2.2.2.1 _ (hih.2.1 _ hmem))
        · intro x hx
          rcases List.mem_cons.mp hx with rfl | hx2
          · exact hvtake
          · obtain ⟨k2, hk2, hk3⟩ := mem_take_elim (hlog.2.2.2.1 x (hih.2.1 x hx2))
            exact mem_take_of_getElem (by omega) hk3
        · intro x hx
          rcases hlog.2.2.2.2.1 x hx with heq | hmem | habs
          · left
            exact List.mem_cons.mpr (Or.inl heq)
          · rcases hih.2.2 x hmem with h1 | h1
            · left
              exact List.mem_cons.mpr (Or.inr h1)
            · right
              exact h1
          · right
            exact orgLoop_absent W H obs tape fuel (k + 1) _ _ x hlog.1 hlog.2.1 habs
              (lt_of_lt_of_le (hbd x (List.mem_of_mem_take hx)) hlog.2.2.1)
      · next hc =>
        dsimp only
        refine ⟨List.nodup_cons.mpr ⟨List.not_mem_nil _, List.nodup_nil⟩, ?_, ?_⟩
        · intro x hx
          rcases List.mem_cons.mp hx with rfl | hx2
          · exact hvtake
          · exact absurd hx2 (List.not_mem_nil x)
        · intro x hx
          rcases hlog.2.2.2.2.1 x hx with heq | hmem | habs
          · left
            exact List.mem_cons.mpr (Or.inl heq)
          · exfalso
            have hz : i - 1 = 0 := by omega
            rw [hz] at hmem
            simp at hmem
          · right
            exact habs
    · next hr2 =>
      rw [Bool.not_eq_true] at hr2
      rw [hr2] at hlog
      simp only [Bool.false_eq_true, if_false, Nat.sub_zero] at hlog
      split
      · next hc =>
        dsimp only
        have hcont : 1 + (if (processIndex W H obs (tape k) s i).2 = true then 1 else 0) ≤ i := by
          rw [hr2]
          simpa using hc
        have hnext := processIndex_next W H obs (tape k) s i hi hcont
        rw [hr2] at hnext
        simp at hnext
        have hih := ih (k + 1) (processIndex W H obs (tape k) s i).1 (i - 1 - 0)
          (by omega) (by omega) hlog.1 hlog.2.1
        have hidx : i - 1 - 0 + 1 = i := by omega
        rw [hidx] at hih
        refine ⟨?_, ?_, ?_⟩
        · refine List.nodup_cons.mpr ⟨?_, hih.1⟩
          intro hmem
          exact hvnot (hlog.2.2.2.1 _ (hih.2.1 _ hmem))
        · intro x hx
          rcases List.mem_cons.mp hx with rfl | hx2
          · exact hvtake
          · obtain ⟨k2, hk2, hk3⟩ := mem_take_elim (hlog.2.2.2.1 x (hih.2.1 x hx2))
            exact mem_take_of_getElem (by omega) hk3
        · intro x hx
          rcases hlog.2.2.2.2.1 x hx with heq | hmem | habs
          · left
            exact List.mem_cons.mpr (Or.inl heq)
          · rcases hih.2.2 x hmem with h1 | h1
            · left
              exact List.mem_cons.mpr (Or.inr h1)
            · right
              exact h1
          · right
            exact orgLoop_absent W H obs tape fuel (k + 1) _ _ x hlog.1 hlog.2.1 habs
              (lt_of_lt_of_le (hbd x (List.mem_of_mem_take hx)) hlog.2.2.1)
      · next hc =>
        dsimp only
        refine ⟨List.nodup_cons.mpr ⟨List.not_mem_nil _, List.nodup_nil⟩, ?_, ?_⟩
        · intro x hx
          rcases List.mem_cons.mp hx with rfl | hx2
          · exact hvtake
          · exact absurd hx2 (List.not_mem_nil x)
        · intro x hx
          rcases hlog.2.2.2.2.1 x hx with heq | hmem | habs
          · left
            exact List.mem_cons.mpr (Or.inl heq)
          · exfalso
            have hz : i = 0 := by omega
            rw [hz] at hmem
            simp at hmem
          · right
            exact habs

theorem orgLoop_zero_index (W H : ℚ) (obs : List Obstacle) (tape : ℕ → StepTape)
    (fuel k : ℕ) (s : LoopState) (org : Organism) (h : s.orgs[0]? = some org) :
    (orgLoop W H obs tape (fuel + 1) k s 0).2 = [org.ident] := by
  unfold orgLoop
  rw [h]
  dsimp only
  rw [if_neg (by
    by_cases hcc : (processIndex W H obs (tape k) s 0).2 = true <;> simp [hcc])]

/-! ### No dead organism survives the tick -/

theorem aliveFrom_mono {l : List Organism} {m m' : ℕ} (h : AliveFrom l m)
    (hm : m ≤ m') : AliveFrom l m' :=
  fun k o hk hko => h k o (le_trans hm hk) hko

theorem aliveFrom_set_above {l : List Organism} {m : ℕ} (a : Organism) (i : ℕ)
    (hi : i < m) (h : AliveFrom l m) : AliveFrom (l.set i a) m := by
  intro k o hk hko
  rw [List.getElem?_set_ne (by omega)] at hko
  exact h k o hk hko

theorem aliveFrom_append_child {l : List Organism} {m : ℕ} {c : Organism}
    (h : AliveFrom l m) (hc : ¬ c.isDead) : AliveFrom (l ++ [c]) m := by
  intro k o hk hko
  by_cases hkl : k < l.length
  · rw [List.getElem?_append_left hkl] at hko
    exact h k o hk hko
  · rw [List.getElem?_append_right (Nat.le_of_not_lt hkl)] at hko
    have hoc : o ∈ [c] := List.getElem?_mem hko
    have hec : o = c := by simpa using hoc
    rw [hec]
    exact hc

theorem aliveFrom_eraseIdx {l : List Organism} {m : ℕ} (j : ℕ)
    (h : AliveFrom l m) : AliveFrom (l.eraseIdx j) m := by
  intro k o hk hko
  by_cases hkj : k < j
  · rw [List.getElem?_eraseIdx_of_lt _ _ _ hkj] at hko
    exact h k o hk hko
  · rw [List.getElem?_eraseIdx_of_ge _ _ _ (Nat.le_of_not_lt hkj)] at hko
    exact h (k + 1) o (by omega) hko

theorem aliveFrom_eraseIdx_below {l : List Organism} {m j : ℕ} (hj : j < m)
    (h : AliveFrom l m) : AliveFrom (l.eraseIdx j) (m - 1) := by
  intro k o hk hko
  rw [List.getElem?_eraseIdx_of_ge _ _ _ (by omega)] at hko
  exact h (k + 1) o (by omega) hko

theorem finish_alive (s : LoopState) (food2 : List Food) (dInc bInc nid : ℕ)
    (orgsC : List Organism) (org4 : Organism) (i' : ℕ) (dec : Bool)
    (hC : AliveFrom orgsC (i' + 1)) :
    AliveFrom (finishIndex s food2 dInc bInc nid orgsC org4 i' dec).1.orgs i' := by
  unfold finishIndex
  by_cases hd : org4.isDead
  · rw [if_pos hd]
    dsimp only
    intro k o hk hko
    rw [List.getElem?_eraseIdx_of_ge _ _ _ hk] at hko
    exact hC (k + 1) o (by omega) hko
  · rw [if_neg hd]
    dsimp only
    intro k o hk hko
    rcases Nat.lt_or_ge k (i' + 1) with hlt | hge
    · have hki : k = i' := by omega
      subst hki
      by_cases hl : k < orgsC.length
      · rw [List.getElem?_set_self hl] at hko
        have heo : org4 = o := Option.some.inj hko
        rw [← heo]
        exact hd
      · have hnone : (orgsC.set k org4)[k]? = none :=
          List.getElem?_eq_none_iff.mpr (by simpa using Nat.le_of_not_lt hl)
        rw [hnone] at hko
        cases hko
    · rw [List.getElem?_set_ne (by omega)] at hko
      exact hC k o hge hko

theorem processIndex_alive (W H : ℚ) (obs : List Obstacle) (t : StepTape)
    (s : LoopState) (i : ℕ) (hi : i < s.orgs.length)
    (hA : AliveFrom s.orgs (i + 1)) :
    AliveFrom (processIndex W H obs t s i).1.orgs
      (i - (if (processIndex W H obs t s i).2 = true then 1 else 0)) := by
  unfold processIndex
  rw [List.getElem?_eq_getElem hi]
  dsimp only
  set org1 := (s.orgs[i].updateAI s.orgs s.food t.jx t.jy).update W H obs with horg1
  set fed1 := (feedPhase org1 s.food).1 with hfed1
  have hA1 : AliveFrom (s.orgs.set i org1) (i + 1) :=
    aliveFrom_set_above org1 i (by omega) hA
  rcases predationStep_cases fed1 (s.orgs.set i org1) i with hP |
    ⟨j, prey, hfk, hjlen, hjne, hP⟩
  · rw [hP]
    dsimp only
    have hif : (if (false : Bool) then i - 1 else i) = i := rfl
    rw [hif]
    rcases reproductionPhase_cases W H obs t.mateRand t.repro fed1
      (s.orgs.set i org1) s.nextId with hR | ⟨m, hR⟩ | ⟨m, hR⟩ <;> rw [hR] <;> dsimp only <;>
      rw [finish_snd] <;> simp only [Bool.false_eq_true, if_false, Nat.sub_zero]
    · exact finish_alive _ _ _ _ _ _ _ _ _ hA1
    · exact finish_alive _ _ _ _ _ _ _ _ _ hA1
    · exact finish_alive _ _ _ _ _ _ _ _ _
        (aliveFrom_append_child hA1 (reproduce_child_spec fed1 m t.repro s.nextId).2.2)
  · rw [hP]
    dsimp only
    set killed : Organism :=
      { fed1 with energy := fed1.energy + min (prey.energy * (7/10)) (fed1.maxEnergy - fed1.energy) } with hkilled
    have hAE : AliveFrom ((s.orgs.set i org1).eraseIdx j)
        ((if decide (j < i) = true then i - 1 else i) + 1) := by
      by_cases hji : j < i
      · simp only [decide_eq_true hji, if_true]
        exact aliveFrom_mono (aliveFrom_eraseIdx_below (by omega) hA1) (by omega)
      · simp only [decide_eq_false hji, Bool.false_eq_true, if_false]
        exact aliveFrom_eraseIdx j hA1
    have hidx : i - (if decide (j < i) = true then 1 else 0)
        = (if decide (j < i) = true then i - 1 else i) := by
      by_cases hji : j < i
      · simp only [decide_eq_true hji, if_true]
      · simp only [decide_eq_false hji, Bool.false_eq_true, if_false, Nat.sub_zero]
    rcases reproductionPhase_cases W H obs t.mateRand t.repro killed
      ((s.orgs.set i org1).eraseIdx j) s.nextId with hR | ⟨m, hR⟩ | ⟨m, hR⟩ <;>
      rw [hR] <;> dsimp only <;> rw [finish_snd, hidx]
    · exact finish_alive _ _ _ _ _ _ _ _ _ hAE
    · exact finish_alive _ _ _ _ _ _ _ _ _ hAE
    · exact finish_alive _ _ _ _ _ _ _ _ _
        (aliveFrom_append_child hAE (reproduce_child_spec killed m t.repro s.nextId).2.2)

theorem orgLoop_alive (W H : ℚ) (obs : List Obstacle) (tape : ℕ → StepTape) :
    ∀ (fuel k : ℕ) (s : LoopState) (i : ℕ), i < s.orgs.length → i + 1 ≤ fuel →
      AliveFrom s.orgs (i + 1) →
      AliveFrom (orgLoop W H obs tape fuel k s i).1.orgs 0 := by
  intro fuel
  induction fuel with
  | zero => intro k s i hi hf hA; exact absurd hf (by omega)
  | succ fuel ih =>
    intro k s i hi hf hA
    unfold orgLoop
    rw [List.getElem?_eq_getElem hi]
    dsimp only
    have hpa := processIndex_alive W H obs (tape k) s i hi hA
    split
    · next hr2 =>
      rw [hr2] at hpa
      simp only [if_true] at hpa
      split
      · next hc =>
        dsimp only
        have hcont : 1 + (if (processIndex W H obs (tape k) s i).2 = true then 1 else 0) ≤ i := by
          rw [hr2]
          simpa using hc
        have hnext := processIndex_next W H obs (tape k) s i hi hcont
        rw [hr2] at hnext
        simp at hnext
        exact ih (k + 1) (processIndex W H obs (tape k) s i).1 (i - 1 - 1)
          (by omega) (by omega) (aliveFrom_mono hpa (by omega))
      · next hc =>
        dsimp only
        have hz : i - 1 = 0 := by omega
        rw [hz] at hpa
        exact hpa
    · next hr2 =>
      rw [Bool.not_eq_true] at hr2
      rw [hr2] at hpa
      simp only [Bool.false_eq_true, if_false, Nat.sub_zero] at hpa
      split
      · next hc =>
        dsimp only
        have hcont : 1 + (if (processIndex W H obs (tape k) s i).2 = true then 1 else 0) ≤ i := by
          rw [hr2]
          simpa using hc
        have hnext := processIndex_next W H obs (tape k) s i hi hcont
        rw [hr2] at hnext
        simp at hnext
        exact ih (k + 1) (processIndex W H obs (tape k) s i).1 (i - 1 - 0)
          (by omega) (by omega) (aliveFrom_mono hpa (by omega))
      · next hc =>
        dsimp only
        have hz : i = 0 := by omega
        subst hz
        exact hpa

/-! ### Well-formedness is preserved by the tick -/

theorem finish_WF (s : LoopState) (food2 : List Food) (dInc bInc nid : ℕ)
    (orgsC : List Organism) (org4 : Organism) (i' : ℕ) (dec : Bool)
    (hC : ∀ o ∈ orgsC, OrgWF o) (h4 : OrgWF org4) :
    ∀ o ∈ (finishIndex s food2 dInc bInc nid orgsC org4 i' dec).1.orgs, OrgWF o := by
  unfold finishIndex
  split <;> dsimp only <;> intro o ho
  · exact hC o (List.eraseIdx_subset _ _ ho)
  · rcases List.mem_or_eq_of_mem_set ho with h | rfl
    · exact hC o h
    · exact h4

theorem killed_WF {p : Organism} (prey : Organism) (hp : OrgWF p) :
    OrgWF { p with energy := p.energy + min (prey.energy * (7/10)) (p.maxEnergy - p.energy) } := by
  obtain ⟨h1, h2, h3⟩ := hp
  refine ⟨?_, h2, h3⟩
  have := min_le_right (prey.energy * (7/10)) (p.maxEnergy - p.energy)
  simp only
  linarith

theorem reproduce_fst_WF {o : Organism} (m : Option Organism) (t : ReproTape)
    (cid : ℕ) (ho : OrgWF o) : OrgWF (o.reproduce m t cid).1 := by
  obtain ⟨hf1, hf2, hf3, hf4, hf5, hf6, hf7⟩ := reproduce_fst_fields o m t cid
  obtain ⟨h1, h2, h3⟩ := ho
  refine ⟨?_, ?_, ?_⟩
  · rw [hf2, hf3]
    nlinarith
  · rw [hf5]
    exact h2
  · rw [hf5]
    exact h3

theorem org1_WF {org0 : Organism} (orgs : List Organism) (food : List Food)
    (jx jy W H : ℚ) (obs : List Obstacle) (h : OrgWF org0) :
    OrgWF ((org0.updateAI orgs food jx jy).update W H obs) := by
  obtain ⟨h1, h2, h3⟩ := h
  have hai := updateAI_sameBody org0 orgs food jx jy
  have hdna : (org0.updateAI orgs food jx jy).dna = org0.dna := hai.2.2.2.2.2.2.1
  have hen : (org0.updateAI orgs food jx jy).energy = org0.energy := hai.2.2.2.1
  have hme : (org0.updateAI orgs food jx jy).maxEnergy = org0.maxEnergy :=
    hai.2.2.2.2.1
  have hup := update_spec (org0.updateAI orgs food jx jy) W H obs
  have hlt := @update_energy_lt (org0.updateAI orgs food jx jy) W H obs
    (by rw [hdna]; exact h2)
  refine ⟨?_, ?_, ?_⟩
  · rw [hup.2.2.1, hme]
    rw [hen] at hlt
    linarith
  · rw [hup.2.2.2.2.1, hdna]
    exact h2
  · rw [hup.2.2.2.2.1, hdna]
    exact h3

theorem fed_WF {org1 : Organism} (food : List Food) (h : OrgWF org1) :
    OrgWF (feedPhase org1 food).1 := by
  obtain ⟨h1, h2, h3⟩ := h
  obtain ⟨hf1, hf2, hf3, hf4, hf5, hf6⟩ := feedPhase_fields org1 food
  refine ⟨?_, ?_, ?_⟩
  · rw [hf3]
    exact feedPhase_energy_le org1 food h1
  · rw [hf2]
    exact h2
  · rw [hf2]
    exact h3

theorem processIndex_WF (W H : ℚ) (obs : List Obstacle) (t : StepTape)
    (s : LoopState) (i : ℕ) (h : WFs s) : WFs (processIndex W H obs t s i).1 := by
  unfold processIndex
  cases hg : s.orgs[i]? with
  | none => exact h
  | some org0 =>
    dsimp only
    have horg0 : OrgWF org0 := h org0 (List.getElem?_mem hg)
    have horg1 : OrgWF ((org0.updateAI s.orgs s.food t.jx t.jy).update W H obs) :=
      org1_WF s.orgs s.food t.jx t.jy W H obs horg0
    set org1 := (org0.updateAI s.orgs s.food t.jx t.jy).update W H obs with horg1d
    have hA1 : ∀ o ∈ s.orgs.set i org1, OrgWF o := by
      intro o ho
      rcases List.mem_or_eq_of_mem_set ho with hmem | rfl
      · exact h o hmem
      · exact horg1
    have hfed : OrgWF (feedPhase org1 s.food).1 := fed_WF s.food horg1
    set fed1 := (feedPhase org1 s.food).1 with hfed1d
    rcases predationStep_cases fed1 (s.orgs.set i org1) i with hP |
      ⟨j, prey, hfk, hjlen, hjne, hP⟩ <;> rw [hP] <;> dsimp only
    · rcases reproductionPhase_cases W H obs t.mateRand t.repro fed1
        (s.orgs.set i org1) s.nextId with hR | ⟨m, hR⟩ | ⟨m, hR⟩ <;>
        rw [hR] <;> dsimp only <;> intro o ho
      · exact finish_WF _ _ _ _ _ _ _ _ _ hA1 hfed o ho
      · exact finish_WF _ _ _ _ _ _ _ _ _ hA1 (reproduce_fst_WF m t.repro s.nextId hfed) o ho
      · refine finish_WF _ _ _ _ _ _ _ _ _ ?_ (reproduce_fst_WF m t.repro s.nextId hfed) o ho
        intro q hq
        rcases List.mem_append.mp hq with hq | hq
        · exact hA1 q hq
        · have : q = (fed1.reproduce m t.repro s.nextId).2 := by simpa using hq
          rw [this]
          exact (reproduce_child_spec fed1 m t.repro s.nextId).2.1
    · have hkill : OrgWF
          { fed1 with energy := fed1.energy + min (prey.energy * (7/10)) (fed1.maxEnergy - fed1.energy) } :=
        killed_WF prey hfed
      have hA2 : ∀ o ∈ (s.orgs.set i org1).eraseIdx j, OrgWF o := by
        intro o ho
        exact hA1 o (List.eraseIdx_subset _ _ ho)
      set killed : Organism :=
        { fed1 with energy := fed1.energy + min (prey.energy * (7/10)) (fed1.maxEnergy - fed1.energy) } with hkd
      rcases reproductionPhase_cases W H obs t.mateRand t.repro killed
        ((s.orgs.set i org1).eraseIdx j) s.nextId with hR | ⟨m, hR⟩ | ⟨m, hR⟩ <;>
        rw [hR] <;> dsimp only <;> intro o ho
      · exact finish_WF _ _ _ _ _ _ _ _ _ hA2 hkill o ho
      · exact finish_WF _ _ _ _ _ _ _ _ _ hA2 (reproduce_fst_WF m t.repro s.nextId hkill) o ho
      · refine finish_WF _ _ _ _ _ _ _ _ _ ?_ (reproduce_fst_WF m t.repro s.nextId hkill) o ho
        intro q hq
        rcases List.mem_append.mp hq with hq | hq
        · exact hA2 q hq
        · have : q = (killed.reproduce m t.repro s.nextId).2 := by simpa using hq
          rw [this]
          exact (reproduce_child_spec killed m t.repro s.nextId).2.1

theorem orgLoop_WF (W H : ℚ) (obs : List Obstacle) (tape : ℕ → StepTape) :
    ∀ (fuel k : ℕ) (s : LoopState) (i : ℕ), WFs s →
      WFs (orgLoop W H obs tape fuel k s i).1 := by
  intro fuel
  induction fuel with
  | zero => intro k s i h; exact h
  | succ fuel ih =>
    intro k s i h
    unfold orgLoop
    cases hg : s.orgs[i]? with
    | none => exact h
    | some org =>
      dsimp only
      split <;> split <;>
        first
          | exact ih (k + 1) _ _ (processIndex_WF W H obs (tape k) s i h)
          | exact processIndex_WF W H obs (tape k) s i h

theorem tickOnce_WF (st : WState) (t : TickTape) (h : WStateWF st) :
    WStateWF (tickOnce st t) := by
  unfold tickOnce
  dsimp only
  split <;> intro o ho <;> dsimp only at ho
  · exact h o ho
  · exact orgLoop_WF st.width st.height st.obstacles t.step
      st.organisms.length 0
      { orgs := st.organisms, food := st.food, deaths := st.stats.deathEvents,
        births := st.stats.reproductionEvents, nextId := st.nextIdent }
      (st.organisms.length - 1) h o ho

theorem update_WF (st : WState) (tapes : ℕ → TickTape) (h : WStateWF st) :
    WStateWF (st.update tapes) := by
  unfold WState.update
  split
  · exact h
  · have key : ∀ (l : List ℕ) (w : WState), WStateWF w →
        WStateWF (l.foldl (fun s k => tickOnce s (tapes k)) w) := by
      intro l
      induction l with
      | nil => intro w hw; exact hw
      | cons a rest ih =>
        intro w hw
        simp only [List.foldl_cons]
        exact ih _ (tickOnce_WF w (tapes a) hw)
    intro o ho
    exact key (List.range st.speed.ceil.toNat) st h o ho

/-! ### Claim C1: trait clamping at reproduction -/

/-- C1: for every reproduction outcome, sexual (`partner = some p`) or
asexual (`partner = none`), and any parent trait vectors within the allowed
ranges (including values at the bounds), every trait of the child DNA
produced by `Organism.reproduce` lies within its declared bound: speed and
efficiency in `[0.2, 2.0]`, aggression and socialness in `[0, 1]`, size in
`[0.5, 1.5]`, reproductionThreshold in `[40, 120]`, lifespan in
`[1000, 6000]`. -/
theorem C1_trait_clamping (o : Organism) (partner : Option Organism)
    (t : ReproTape) (cid : ℕ)
    (ho : dnaInRange o.dna) (hp : ∀ p ∈ partner, dnaInRange p.dna) :
    dnaInRange ((o.reproduce partner t cid).2).dna := by
  cases partner <;>
    simp only [Organism.reproduce, Organism.make] <;>
    exact clampDNA_inRange _

/-- Witness for C1: a parent sitting exactly at the extreme ends of the
allowed ranges, asexual path, extreme perturbation draw. -/
theorem C1_trait_clamping_witness :
    dnaInRange ((Organism.reproduce
      { ident := 0, x := 100, y := 100, dx := 0, dy := 0, energy := 130,
        maxEnergy := 140, age := 300,
        dna := { speed := 2, efficiency := 1/5, aggression := 1, size := 3/2,
                 reproductionThreshold := 120, lifespan := 6000, socialness := 0 },
        species := Species.herbivore, targetX := none, targetY := none,
        reproductionCooldown := 0 }
      none
      { p1 := 99/100, p2 := 0, p3 := 99/100, p4 := 99/100, p5 := 99/100,
        p6 := 99/100, p7 := 0, dirC := 1, dirS := 0, v1 := 0, v2 := 1 }
      7).2).dna :=
  C1_trait_clamping _ none _ 7 (by norm_num [dnaInRange]) (by simp)

/-! ### Claim C6: founder DNA generation ranges -/

/-- C6: each trait of a founder DNA produced by `generateRandomDNA` is an
affine function of its own independent uniform draw in `[0,1)`; the
resulting founder range of every trait is contained in — and strictly
narrower than — the allowed post-clamp range, so every generated founder
trait lies within its post-clamp bounds.  The final numeric conjunction
records the strict containment of the founder interval endpoints in the
clamp interval for the five traits whose endpoints differ, and for
aggression/socialness the strictness is `d.aggression < 1`/`d.socialness <
1` against the allowed upper bound `1`. -/
theorem C6_founder_generation (r1 r2 r3 r4 r5 r6 r7 : ℚ)
    (h1 : 0 ≤ r1 ∧ r1 < 1) (h2 : 0 ≤ r2 ∧ r2 < 1) (h3 : 0 ≤ r3 ∧ r3 < 1)
    (h4 : 0 ≤ r4 ∧ r4 < 1) (h5 : 0 ≤ r5 ∧ r5 < 1) (h6 : 0 ≤ r6 ∧ r6 < 1)
    (h7 : 0 ≤ r7 ∧ r7 < 1) :
    founderRanges (generateRandomDNA r1 r2 r3 r4 r5 r6 r7) ∧
    dnaInRange (generateRandomDNA r1 r2 r3 r4 r5 r6 r7) ∧
    ((1:ℚ)/5 < 1/2 ∧ (3:ℚ)/2 < 2 ∧ (1:ℚ)/2 < 4/5 ∧ (6:ℚ)/5 < 3/2 ∧
      (40:ℚ) < 60 ∧ (100:ℚ) < 120 ∧ (1000:ℚ) < 1500 ∧ (4500:ℚ) < 6000) := by
  obtain ⟨h1a, h1b⟩ := h1
  obtain ⟨h2a, h2b⟩ := h2
  obtain ⟨h3a, h3b⟩ := h3
  obtain ⟨h4a, h4b⟩ := h4
  obtain ⟨h5a, h5b⟩ := h5
  obtain ⟨h6a, h6b⟩ := h6
  obtain ⟨h7a, h7b⟩ := h7
  refine ⟨?_, ?_, by norm_num⟩
  · unfold founderRanges generateRandomDNA
    refine ⟨by linarith, by linarith, by linarith, by linarith, by linarith,
      by linarith, by linarith, by linarith, by linarith, by linarith,
      by linarith, by linarith, by linarith, by linarith⟩
  · unfold dnaInRange generateRandomDNA
    refine ⟨by linarith, by linarith, by linarith, by linarith, by linarith,
      by linarith, by linarith, by linarith, by linarith, by linarith,
      by linarith, by linarith, by linarith, by linarith⟩

/-- Witness for C6 at the draw `1/2` for every trait. -/
theorem C6_founder_generation_witness :
    founderRanges (generateRandomDNA (1/2) (1/2) (1/2) (1/2) (1/2) (1/2) (1/2)) ∧
    dnaInRange (generateRandomDNA (1/2) (1/2) (1/2) (1/2) (1/2) (1/2) (1/2)) ∧
    ((1:ℚ)/5 < 1/2 ∧ (3:ℚ)/2 < 2 ∧ (1:ℚ)/2 < 4/5 ∧ (6:ℚ)/5 < 3/2 ∧
      (40:ℚ) < 60 ∧ (100:ℚ) < 120 ∧ (1000:ℚ) < 1500 ∧ (4500:ℚ) < 6000) :=
  C6_founder_generation (1/2) (1/2) (1/2) (1/2) (1/2) (1/2) (1/2)
    (by norm_num) (by norm_num) (by norm_num) (by norm_num) (by norm_num)
    (by norm_num) (by norm_num)

theorem findKillAux_zero (pred : Organism) (orgs : List Organism) (i : ℕ) :
    findKillAux pred orgs i 0 = findKillAt pred orgs i 0 := rfl

theorem findKillAux_succ (pred : Organism) (orgs : List Organism) (i j : ℕ) :
    findKillAux pred orgs i (j + 1) =
      match findKillAt pred orgs i (j + 1) with
      | some r => some r
      | none => findKillAux pred orgs i j := rfl

/-! ### Claim C3: predation energy transfer -/

/-- C3: for every successful predation kill (the descending prey scan of
`predationStep` finds a colliding, eligible prey with energy `E` below the
predator's), the predator's energy increases by exactly
`min(0.7·E, maxEnergy − energy)`, the prey is removed from the organism
collection (exactly one organism disappears), the predator never loses
energy from the act of killing (given the invariant-supplied facts
`0 ≤ prey.energy` and `energy ≤ maxEnergy`), and — last conjunct — any
single `predationStep` removes at most one organism, so at most one prey is
consumed per predator per tick. -/
theorem C3_predation_transfer (pred : Organism) (orgs : List Organism)
    (i j : ℕ) (prey : Organism)
    (hg : pred.predGuard)
    (hf : findKill pred orgs i = some (j, prey))
    (hE : 0 ≤ prey.energy)
    (hle : pred.energy ≤ pred.maxEnergy) :
    (predationStep pred orgs i).1.energy =
        pred.energy + min (prey.energy * (7/10)) (pred.maxEnergy - pred.energy) ∧
    (predationStep pred orgs i).2.1 = orgs.eraseIdx j ∧
    (predationStep pred orgs i).2.1.length + 1 = orgs.length ∧
    pred.energy ≤ (predationStep pred orgs i).1.energy ∧
    (predationStep pred orgs i).2.2.2 = 1 ∧
    (∀ (p : Organism) (os : List Organism) (k : ℕ),
      os.length ≤ (predationStep p os k).2.1.length + 1) := by
  have hj := findKill_some hf
  have hstep : predationStep pred orgs i =
      (Organism.mk pred.ident pred.x pred.y pred.dx pred.dy
        (pred.energy + min (prey.energy * (7/10)) (pred.maxEnergy - pred.energy))
        pred.maxEnergy pred.age pred.dna pred.species pred.targetX pred.targetY
        pred.reproductionCooldown,
       orgs.eraseIdx j, decide (j < i), 1) := by
    unfold predationStep
    rw [if_pos hg, hf]
  have hgain : 0 ≤ min (prey.energy * (7/10)) (pred.maxEnergy - pred.energy) := by
    apply le_min
    · positivity
    · linarith
  refine ⟨by rw [hstep], by rw [hstep],
    ?_, by rw [hstep]; dsimp only; linarith, by rw [hstep], ?_⟩
  · rw [hstep]
    dsimp only
    rw [List.length_eraseIdx_of_lt hj.1]
    omega
  · intro p os k
    unfold predationStep
    split
    · cases hfk : findKill p os k with
      | none => simp
      | some r =>
        obtain ⟨j', q⟩ := r
        have hlt := (findKill_some hfk).1
        dsimp only
        rw [List.length_eraseIdx_of_lt hlt]
        omega
    · simp

/-- Witness for C3: a carnivore with energy 50 colliding with a herbivore
with energy 20 at the same point. -/
theorem C3_predation_transfer_witness :
    ((predationStep C3pred [C3prey, C3pred] 1).1.energy =
        C3pred.energy + min (C3prey.energy * (7/10)) (C3pred.maxEnergy - C3pred.energy) ∧
      (predationStep C3pred [C3prey, C3pred] 1).2.1 = [C3prey, C3pred].eraseIdx 0 ∧
      (predationStep C3pred [C3prey, C3pred] 1).2.1.length + 1 = [C3prey, C3pred].length ∧
      C3pred.energy ≤ (predationStep C3pred [C3prey, C3pred] 1).1.energy ∧
      (predationStep C3pred [C3prey, C3pred] 1).2.2.2 = 1 ∧
      (∀ (p : Organism) (os : List Organism) (k : ℕ),
        os.length ≤ (predationStep p os k).2.1.length + 1)) :=
  C3_predation_transfer C3pred [C3prey, C3pred] 1 0 C3prey
    (Or.inl rfl)
    (by
      have h3 := Organism.three_le_getRadius C3pred
      have hc : C3pred.collidesOrg C3prey := by
        unfold Organism.collidesOrg Organism.distanceTo
        have harg : (C3pred.x - C3prey.x) * (C3pred.x - C3prey.x) +
            (C3pred.y - C3prey.y) * (C3pred.y - C3prey.y) = 0 := by
          norm_num [C3pred, C3prey]
        rw [harg, sqrtQ_zero]
        linarith
      have h1 : findKillAt C3pred [C3prey, C3pred] 1 1 = none := by
        unfold findKillAt
        simp
      have h0 : findKillAt C3pred [C3prey, C3pred] 1 0 = some (0, C3prey) := by
        unfold findKillAt
        simp only [List.getElem?_cons_zero]
        rw [if_pos ⟨by simp, hc, Or.inl rfl, by norm_num [C3pred, C3prey]⟩]
      show findKill C3pred [C3prey, C3pred] 1 = some (0, C3prey)
      unfold findKill
      rw [if_neg (by simp)]
      show findKillAux C3pred [C3prey, C3pred] 1 (0 + 1) = some (0, C3prey)
      rw [findKillAux_succ, h1]
      show findKillAux C3pred [C3prey, C3pred] 1 0 = some (0, C3prey)
      rw [findKillAux_zero, h0])
    (by norm_num [C3prey])
    (by norm_num [C3pred])

/-! ### Claim C4: distinct aggression thresholds 0.5 and 0.6 -/

/-- C4: hunting-target acquisition in `updateAI` applies to omnivores with
aggression above `0.5` that are below 60% energy (here witnessed by the
target actually being set to the prey's position), while the predation
step applies only above `0.6`; hence an omnivore with aggression in
`(0.5, 0.6]` satisfies the hunting guard but fails the predation guard, and
its `predationStep` kills nothing and leaves the collection unchanged. -/
theorem C4_aggression_thresholds (o p : Organism) (orgs : List Organism)
    (jx jy : ℚ) (i : ℕ)
    (hsp : o.species = Species.omnivore)
    (hlo : 1/2 < o.dna.aggression) (hhi : o.dna.aggression ≤ 3/5)
    (hen : o.energy < o.maxEnergy * (3/5))
    (hprey : (orgs.filter fun q => decide (o.huntPreyOk q)) = [p])
    (hfar : 5 < o.distanceTo p.x p.y) :
    o.huntGuard ∧ ¬ o.predGuard ∧
    (o.updateAI orgs [] jx jy).targetX = some p.x ∧
    (o.updateAI orgs [] jx jy).targetY = some p.y ∧
    predationStep o orgs i = (o, orgs, false, 0) := by
  have hguard : o.huntGuard := ⟨Or.inr ⟨hsp, hlo⟩, hen⟩
  have hnpred : ¬ o.predGuard := by
    unfold Organism.predGuard
    rintro (h | ⟨_, h⟩)
    · rw [hsp] at h; cases h
    · linarith
  refine ⟨hguard, hnpred, ?_, ?_, by unfold predationStep; rw [if_neg hnpred]⟩
  all_goals
    have hforage : o.forage [] = o := by
      unfold Organism.forage
      rw [if_neg (by simp)]
    have hhunt : ((o.forage []).hunt orgs) =
        { o with targetX := some p.x, targetY := some p.y } := by
      rw [hforage]
      unfold Organism.hunt
      rw [if_pos hguard]
      dsimp only
      rw [hprey]
      rw [if_pos (by simp)]
      unfold Organism.findNearest
      simp
  all_goals
    have hflock := applyFlockingGuard_sameNonVel
      { o with targetX := some p.x, targetY := some p.y } orgs
  all_goals
    set o3 := Organism.applyFlockingGuard
      { o with targetX := some p.x, targetY := some p.y } orgs with ho3
  all_goals
    have hx3 : o3.x = o.x := hflock.1.2.1
    have hy3 : o3.y = o.y := hflock.1.2.2.1
    have ht3x : o3.targetX = some p.x := hflock.2.1
    have ht3y : o3.targetY = some p.y := hflock.2.2
    have hdist : sqrtQ ((p.x - o3.x) * (p.x - o3.x) + (p.y - o3.y) * (p.y - o3.y)) =
        o.distanceTo p.x p.y := by
      rw [hx3, hy3]
      unfold Organism.distanceTo
      ring_nf
    unfold Organism.updateAI
    rw [hhunt, ← ho3]
    unfold Organism.steer
    rw [ht3x, ht3y]
    dsimp only
    unfold Organism.moveTowards
    dsimp only
    rw [if_pos (by rw [hdist]; exact hfar)]
    simp [ht3x, ht3y]

/-- Witness for C4: an omnivore with aggression `0.55`, hungry, with a
single herbivore ten units away. -/
theorem C4_aggression_thresholds_witness :
    (C4omn.huntGuard ∧ ¬ C4omn.predGuard ∧
      (C4omn.updateAI [C4omn, C4herb] [] 0 0).targetX = some C4herb.x ∧
      (C4omn.updateAI [C4omn, C4herb] [] 0 0).targetY = some C4herb.y ∧
      predationStep C4omn [C4omn, C4herb] 0 = (C4omn, [C4omn, C4herb], false, 0)) :=
  C4_aggression_thresholds C4omn C4herb [C4omn, C4herb] 0 0 0
    rfl
    (by norm_num [C4omn])
    (by norm_num [C4omn])
    (by norm_num [C4omn])
    (by
      have h1 : (decide (C4omn.huntPreyOk C4omn)) = false := by
        simp [Organism.huntPreyOk]
      have h2 : (decide (C4omn.huntPreyOk C4herb)) = true := by
        rw [decide_eq_true_eq]
        exact ⟨by norm_num [C4omn, C4herb], Or.inl rfl⟩
      simp [List.filter, h1, h2])
    (by
      unfold Organism.distanceTo
      have harg : (C4omn.x - C4herb.x) * (C4omn.x - C4herb.x) +
          (C4omn.y - C4herb.y) * (C4omn.y - C4herb.y) = 10 * 10 := by
        norm_num [C4omn, C4herb]
      rw [harg, sqrtQ_sq (by norm_num)]
      norm_num)

/-! ### Claim C7: reproduction cost is paid even for discarded offspring -/

/-- C7: whenever the reproduction block fires (the organism is eligible and
either a mate is in range or the 10% asexual draw succeeds), the parent's
energy decreases by `0.6 · reproductionThreshold` and its cooldown is set
to 300 ticks — the same equations on both the sexual and asexual paths —
and when the offspring's spawn point is invalid (inside an obstacle or
outside the arena) the offspring is discarded: the organism list and the
reproduction-event count are unchanged, while the cost above was still
paid. -/
theorem C7_reproduction_cost (W H : ℚ) (obstacles : List Obstacle)
    (mateRand : ℚ) (rt : ReproTape) (org : Organism) (orgs : List Organism)
    (nid : ℕ)
    (hcan : org.canReproduce)
    (htrig : (orgs.filter fun p => decide (mateOk org p)) ≠ [] ∨ mateRand < 1/10) :
    (reproductionPhase W H obstacles mateRand rt org orgs nid).1.energy =
        org.energy - org.dna.reproductionThreshold * (3/5) ∧
    (reproductionPhase W H obstacles mateRand rt org orgs nid).1.reproductionCooldown = 300 ∧
    (¬ childValid W H obstacles
        (org.reproduce ((orgs.filter fun p => decide (mateOk org p)).head?) rt nid).2 →
      (reproductionPhase W H obstacles mateRand rt org orgs nid).2.1 = orgs ∧
      (reproductionPhase W H obstacles mateRand rt org orgs nid).2.2.1 = 0) := by
  have hphase : reproductionPhase W H obstacles mateRand rt org orgs nid =
      (if childValid W H obstacles
          (org.reproduce ((orgs.filter fun p => decide (mateOk org p)).head?) rt nid).2 then
        ((org.reproduce ((orgs.filter fun p => decide (mateOk org p)).head?) rt nid).1,
          orgs ++ [(org.reproduce ((orgs.filter fun p => decide (mateOk org p)).head?) rt nid).2],
          1, nid + 1)
      else
        ((org.reproduce ((orgs.filter fun p => decide (mateOk org p)).head?) rt nid).1,
          orgs, 0, nid + 1)) := by
    unfold reproductionPhase
    rw [if_pos hcan, if_pos htrig]
  have hpar : ∀ (m : Option Organism),
      (org.reproduce m rt nid).1.energy =
          org.energy - org.dna.reproductionThreshold * (3/5) ∧
      (org.reproduce m rt nid).1.reproductionCooldown = 300 := by
    intro m
    unfold Organism.reproduce
    cases m <;> exact ⟨rfl, rfl⟩
  by_cases hv : childValid W H obstacles
      (org.reproduce ((orgs.filter fun p => decide (mateOk org p)).head?) rt nid).2
  · rw [hphase, if_pos hv]
    exact ⟨(hpar ((orgs.filter fun p => decide (mateOk org p)).head?)).1,
      (hpar ((orgs.filter fun p => decide (mateOk org p)).head?)).2,
      fun h => absurd hv h⟩
  · rw [hphase, if_neg hv]
    exact ⟨(hpar ((orgs.filter fun p => decide (mateOk org p)).head?)).1,
      (hpar ((orgs.filter fun p => decide (mateOk org p)).head?)).2,
      fun _ => ⟨rfl, rfl⟩⟩

/-- Witness for C7: a lone eligible parent whose child spawns inside an
obstacle (asexual draw succeeds); the cost is paid and nothing is added. -/
theorem C7_reproduction_cost_witness :
    ((reproductionPhase 800 600 [C7obstacle] (1/20) C7tape C7org [C7org] 5).1.energy =
        C7org.energy - C7org.dna.reproductionThreshold * (3/5) ∧
      (reproductionPhase 800 600 [C7obstacle] (1/20) C7tape C7org [C7org] 5).1.reproductionCooldown = 300 ∧
      (¬ childValid 800 600 [C7obstacle]
          (C7org.reproduce (([C7org].filter fun p => decide (mateOk C7org p)).head?) C7tape 5).2 →
        (reproductionPhase 800 600 [C7obstacle] (1/20) C7tape C7org [C7org] 5).2.1 = [C7org] ∧
        (reproductionPhase 800 600 [C7obstacle] (1/20) C7tape C7org [C7org] 5).2.2.1 = 0)) :=
  C7_reproduction_cost 800 600 [C7obstacle] (1/20) C7tape C7org [C7org] 5
    (by refine ⟨by norm_num [C7org], rfl, by norm_num [C7org]⟩)
    (Or.inr (by norm_num))

/-! ### Claim C8: reset -/

theorem spawnFood_length (W H : ℚ) (obstacles : List Obstacle)
    (posT : ℕ → ℕ → ℚ × ℚ) (eT : ℕ → ℚ) :
    ∀ (count : ℕ) (food : List Food),
      (spawnFood W H obstacles posT eT food count).length = food.length + count := by
  intro count
  induction count with
  | zero => intro food; simp [spawnFood]
  | succ n ih =>
    intro food
    unfold spawnFood
    rw [List.range_succ, List.foldl_append]
    unfold spawnFood at ih
    simp only [List.foldl_cons, List.foldl_nil]
    rw [List.length_append, ih food]
    simp
    omega

theorem seedOrganism_species (W H : ℚ) (t : SeedTape) (sp : Species) (id : ℕ) :
    (seedOrganism W H t sp id).species = sp := rfl

theorem seedSegment_filter_all (g : ℕ → Organism) (sp : Species) (n : ℕ)
    (p : Organism → Bool) (hg : ∀ k, (g k).species = sp)
    (hp : ∀ o : Organism, o.species = sp → p o = true) :
    (((List.range n).map g).filter p).length = n := by
  rw [List.filter_eq_self.mpr]
  · simp
  · intro a ha
    obtain ⟨k, _, rfl⟩ := List.mem_map.mp ha
    exact hp _ (hg k)

theorem seedSegment_filter_none (g : ℕ → Organism) (sp : Species) (n : ℕ)
    (p : Organism → Bool) (hg : ∀ k, (g k).species = sp)
    (hp : ∀ o : Organism, o.species = sp → p o = false) :
    (((List.range n).map g).filter p).length = 0 := by
  rw [List.filter_eq_nil_iff.mpr]
  · rfl
  · intro a ha
    obtain ⟨k, _, rfl⟩ := List.mem_map.mp ha
    simp [hp _ (hg k)]

/-- C8: `reset()` restores the organism collection to the default seeded
composition (25 herbivores, 15 omnivores, 10 carnivores — 50 in total) and
the food list to 40 items, zeroes the `reproductionEvents` and
`deathEvents` counters, and leaves the obstacle list unchanged. -/
theorem C8_reset (st : WState) (seeds : ℕ → SeedTape) (posT : ℕ → ℕ → ℚ × ℚ)
    (eT : ℕ → ℚ) :
    ((st.reset seeds posT eT).organisms.filter fun o =>
        decide (o.species = Species.herbivore)).length = 25 ∧
    ((st.reset seeds posT eT).organisms.filter fun o =>
        decide (o.species = Species.omnivore)).length = 15 ∧
    ((st.reset seeds posT eT).organisms.filter fun o =>
        decide (o.species = Species.carnivore)).length = 10 ∧
    (st.reset seeds posT eT).organisms.length = 50 ∧
    (st.reset seeds posT eT).food.length = 40 ∧
    (st.reset seeds posT eT).stats.reproductionEvents = 0 ∧
    (st.reset seeds posT eT).stats.deathEvents = 0 ∧
    (st.reset seeds posT eT).obstacles = st.obstacles := by
  have horgs : (st.reset seeds posT eT).organisms =
      setupInitialPopulation st.width st.height seeds st.nextIdent := rfl
  have hsplit : ∀ p : Organism → Bool,
      ((st.reset seeds posT eT).organisms.filter p).length =
      (((List.range 25).map fun k =>
          seedOrganism st.width st.height (seeds k) Species.herbivore (st.nextIdent + k)).filter p).length +
      ((((List.range 15).map fun k =>
          seedOrganism st.width st.height (seeds (25 + k)) Species.omnivore (st.nextIdent + 25 + k)).filter p).length +
       (((List.range 10).map fun k =>
          seedOrganism st.width st.height (seeds (40 + k)) Species.carnivore (st.nextIdent + 40 + k)).filter p).length) := by
    intro p
    rw [horgs]
    unfold setupInitialPopulation
    rw [List.filter_append, List.filter_append, List.length_append, List.length_append]
    omega
  refine ⟨?_, ?_, ?_, ?_, ?_, rfl, rfl, rfl⟩
  · rw [hsplit]
    rw [seedSegment_filter_all _ Species.herbivore _ _ (fun k => rfl) (fun o ho => by simp [ho]),
      seedSegment_filter_none _ Species.omnivore _ _ (fun k => rfl) (fun o ho => by simp [ho]),
      seedSegment_filter_none _ Species.carnivore _ _ (fun k => rfl) (fun o ho => by simp [ho])]
  · rw [hsplit]
    rw [seedSegment_filter_none _ Species.herbivore _ _ (fun k => rfl) (fun o ho => by simp [ho]),
      seedSegment_filter_all _ Species.omnivore _ _ (fun k => rfl) (fun o ho => by simp [ho]),
      seedSegment_filter_none _ Species.carnivore _ _ (fun k => rfl) (fun o ho => by simp [ho])]
  · rw [hsplit]
    rw [seedSegment_filter_none _ Species.herbivore _ _ (fun k => rfl) (fun o ho => by simp [ho]),
      seedSegment_filter_none _ Species.omnivore _ _ (fun k => rfl) (fun o ho => by simp [ho]),
      seedSegment_filter_all _ Species.carnivore _ _ (fun k => rfl) (fun o ho => by simp [ho])]
  · rw [horgs]
    unfold setupInitialPopulation
    simp
  · have : (st.reset seeds posT eT).food =
        spawnFood st.width st.height st.obstacles posT eT [] 40 := rfl
    rw [this, spawnFood_length]
    rfl


/-- C10: energy never exceeds `maxEnergy`. The constructor builds organisms
with `maxEnergy = 80 + size * 40` and `energy = 0.8 * maxEnergy` (which is
below the cap whenever `size ≥ 0`); the feeding phase keeps the cap;
the predation gain `min(0.7 * prey.energy, maxEnergy - energy)` can never
push the predator above its cap; and a full `World.update` (any number of
ticks at any speed) preserves the cap for every organism, given the tick
invariants (positive efficiency and nonnegative reproduction threshold,
both enforced at construction and by clamping). -/
theorem C10_energy_cap :
    (∀ (id : ℕ) (x y : ℚ) (sp : Species) (dna : DNA) (v1 v2 : ℚ),
      (Organism.make id x y sp dna v1 v2).maxEnergy = 80 + dna.size * 40 ∧
      (Organism.make id x y sp dna v1 v2).energy
        = (Organism.make id x y sp dna v1 v2).maxEnergy * (4/5) ∧
      (0 ≤ dna.size →
        (Organism.make id x y sp dna v1 v2).energy
          ≤ (Organism.make id x y sp dna v1 v2).maxEnergy)) ∧
    (∀ (o : Organism) (fs : List Food), o.energy ≤ o.maxEnergy →
      (feedPhase o fs).1.energy ≤ (feedPhase o fs).1.maxEnergy) ∧
    (∀ p prey : Organism,
      p.energy + min (prey.energy * (7/10)) (p.maxEnergy - p.energy)
        ≤ p.maxEnergy) ∧
    (∀ (st : WState) (tapes : ℕ → TickTape),
      (∀ o ∈ st.organisms, OrgWF o) →
      ∀ o ∈ (st.update tapes).organisms, o.energy ≤ o.maxEnergy) := by
  refine ⟨?_, ?_, ?_, ?_⟩
  · intro id x y sp dna v1 v2
    refine ⟨rfl, by show (80 + dna.size * 40) * (4/5) = (80 + dna.size * 40) * (4/5); ring, ?_⟩
    intro hs
    show (80 + dna.size * 40) * (4/5) ≤ 80 + dna.size * 40
    nlinarith
  · intro o fs h
    obtain ⟨hf1, hf2, hf3, hf4, hf5, hf6⟩ := feedPhase_fields o fs
    rw [hf3]
    exact feedPhase_energy_le o fs h
  · intro p prey
    have := min_le_right (prey.energy * (7/10)) (p.maxEnergy - p.energy)
    linarith
  · intro st tapes h o ho
    exact (update_WF st tapes h o ho).1

/-- Closed instance of the C10 theorem at concrete inputs, discharging each
hypothesis: the fixture organism has `size = 1 ≥ 0`, is below its cap, and
running a full update of the one-organism fixture world keeps every
organism's energy at or below its cap. -/
theorem C10_energy_cap_witness :
    ((Organism.make 0 0 0 Species.carnivore C3pred.dna 0 0).energy
      ≤ (Organism.make 0 0 0 Species.carnivore C3pred.dna 0 0).maxEnergy) ∧
    ((feedPhase C3pred []).1.energy ≤ (feedPhase C3pred []).1.maxEnergy) ∧
    (C3pred.energy + min (C3prey.energy * (7/10))
        (C3pred.maxEnergy - C3pred.energy) ≤ C3pred.maxEnergy) ∧
    energyOkAll (C10world.update constTicks) = true := by
  refine ⟨?_, ?_, ?_, ?_⟩
  · exact (C10_energy_cap.1 0 0 0 Species.carnivore C3pred.dna 0 0).2.2
      (by norm_num [C3pred])
  · exact C10_energy_cap.2.1 C3pred [] (by norm_num [C3pred])
  · exact C10_energy_cap.2.2.1 C3pred C3prey
  · have h4 := C10_energy_cap.2.2.2 C10world constTicks
      (by
        intro o ho
        have hoe : o = C3pred := by simpa [C10world] using ho
        rw [hoe]
        exact ⟨by norm_num [C3pred], by norm_num [C3pred], by norm_num [C3pred]⟩)
    simp only [energyOkAll, List.all_eq_true, decide_eq_true_eq]
    exact fun o ho => h4 o ho

/-- C5: death correctness. The `isDead` predicate is exactly
`energy ≤ 0 ∨ age > lifespan`; after any logical tick no organism left in
the collection is dead (every organism that satisfied the death condition
at its death check was removed within the same tick, including prey removed
by predation, which never reappears), and the death counter accounts for
exactly one increment per removal: the change in population equals births
minus counted deaths. -/
theorem C5_death_correctness :
    (∀ o : Organism, o.isDead ↔ (o.energy ≤ 0 ∨ o.dna.lifespan < (o.age : ℚ))) ∧
    ∀ (st : WState) (t : TickTape),
      (∀ o ∈ (tickOnce st t).organisms, ¬ o.isDead) ∧
      (tickOnce st t).organisms.length + (tickOnce st t).stats.deathEvents
          + st.stats.reproductionEvents
        = st.organisms.length + st.stats.deathEvents
          + (tickOnce st t).stats.reproductionEvents := by
  refine ⟨fun o => Iff.rfl, ?_⟩
  intro st t
  unfold tickOnce
  dsimp only
  split
  · next he =>
    refine ⟨?_, rfl⟩
    intro o ho
    rw [List.isEmpty_iff.mp he] at ho
    cases ho
  · next he =>
    have hlen : 0 < st.organisms.length := by
      cases hh : st.organisms with
      | nil => exact absurd (by rw [hh]; rfl) he
      | cons a l => simp [hh]
    constructor
    · intro o ho
      have halive := orgLoop_alive st.width st.height st.obstacles t.step
        st.organisms.length 0
        { orgs := st.organisms, food := st.food, deaths := st.stats.deathEvents,
          births := st.stats.reproductionEvents, nextId := st.nextIdent }
        (st.organisms.length - 1) (by dsimp only; omega) (by omega)
        (by
          intro k o hk hko
          dsimp only at hko
          have hnone : st.organisms[k]? = none :=
            List.getElem?_eq_none_iff.mpr (by omega)
          rw [hnone] at hko
          cases hko)
      obtain ⟨n, hn⟩ := List.mem_iff_getElem?.mp ho
      exact halive n o (Nat.zero_le n) hn
    · have h1 := orgLoop_conserve st.width st.height st.obstacles t.step
        st.organisms.length 0
        { orgs := st.organisms, food := st.food, deaths := st.stats.deathEvents,
          births := st.stats.reproductionEvents, nextId := st.nextIdent }
        (st.organisms.length - 1) (by dsimp only; omega) (by omega)
      exact h1

/-- C9: the reverse-index loop together with the predation index adjustment
processes every organism exactly once. Under unique identifiers (an
invariant of the world: fresh identifiers come from a strictly increasing
counter), the per-tick processing log contains no identifier twice, every
logged identifier belongs to an organism present at the start of the tick,
and every surviving organism that was present at the start of the tick is
logged exactly once — none is skipped and none is double-processed,
whether a removed prey sat below or above the predator's index. -/
theorem C9_single_processing (st : WState) (t : TickTape)
    (hnd : (orgIds st.organisms).Nodup)
    (hbd : ∀ x ∈ orgIds st.organisms, x < st.nextIdent) :
    (tickLog st t).Nodup ∧
    (∀ x ∈ tickLog st t, x ∈ orgIds st.organisms) ∧
    (∀ o ∈ (tickOnce st t).organisms, o.ident ∈ orgIds st.organisms →
      (tickLog st t).count o.ident = 1) := by
  by_cases he : st.organisms.isEmpty = true
  · have hnil : st.organisms = [] := List.isEmpty_iff.mp he
    have hlogeq : tickLog st t = [] := by
      unfold tickLog
      rw [if_pos he]
    refine ⟨by rw [hlogeq]; exact List.nodup_nil, ?_, ?_⟩
    · intro x hx
      rw [hlogeq] at hx
      exact absurd hx (List.not_mem_nil x)
    · intro o ho hid
      rw [hnil] at hid
      exact absurd hid (by simp [orgIds])
  · have hlen : 0 < st.organisms.length := by
      cases hh : st.organisms with
      | nil => exact absurd (by rw [hh]; rfl) he
      | cons a l => simp [hh]
    have hlogeq : tickLog st t = (orgLoop st.width st.height st.obstacles t.step
        st.organisms.length 0
        { orgs := st.organisms, food := st.food, deaths := st.stats.deathEvents,
          births := st.stats.reproductionEvents, nextId := st.nextIdent }
        (st.organisms.length - 1)).2 := by
      unfold tickLog
      rw [if_neg he]
    have horgs : (tickOnce st t).organisms =
        (orgLoop st.width st.height st.obstacles t.step
        st.organisms.length 0
        { orgs := st.organisms, food := st.food, deaths := st.stats.deathEvents,
          births := st.stats.reproductionEvents, nextId := st.nextIdent }
        (st.organisms.length - 1)).1.orgs := by
      unfold tickOnce
      dsimp only
      rw [if_neg he]
    have hloop := orgLoop_log st.width st.height st.obstacles t.step
      st.organisms.length 0
      { orgs := st.organisms, food := st.food, deaths := st.stats.deathEvents,
        births := st.stats.reproductionEvents, nextId := st.nextIdent }
      (st.organisms.length - 1) (by dsimp only; omega) (by omega) hnd hbd
    have hfull : (orgIds st.organisms).take (st.organisms.length - 1 + 1) =
        orgIds st.organisms := by
      have h1 : st.organisms.length - 1 + 1 = st.organisms.length := by omega
      rw [h1]
      exact List.take_of_length_le (le_of_eq (List.length_map _ _))
    rw [hfull] at hloop
    rw [hlogeq, horgs]
    refine ⟨hloop.1, hloop.2.1, ?_⟩
    intro o ho hid
    rcases hloop.2.2 o.ident hid with hmem | habs
    · exact List.count_eq_one_of_mem hloop.1 hmem
    · exact absurd (List.mem_map_of_mem Organism.ident ho) habs

/-- Closed instance of the C9 theorem: the one-organism fixture world has
distinct identifiers below its fresh counter; its tick log is exactly the
one processed identifier, without duplicates. -/
theorem C9_single_processing_witness :
    tickLog C10world (constTicks 0) = [C3pred.ident] ∧
    (tickLog C10world (constTicks 0)).Nodup := by
  have hlog := (C9_single_processing C10world (constTicks 0)
      (by norm_num [orgIds, C10world, C3pred])
      (by norm_num [orgIds, C10world, C3pred])).1
  refine ⟨?_, hlog⟩
  unfold tickLog
  rw [if_neg (by norm_num [C10world])]
  simp only [C10world]
  exact orgLoop_zero_index 800 600 [] (constTicks 0).step 0 0 _ C3pred rfl

/-! ### The C2 feeding-order scenario -/

theorem scenario_AI (jx jy : ℚ) :
    scenarioOrg.updateAI [scenarioOrg] [scenarioFood] jx jy
      = { scenarioOrg with dx := (jx - 1/2) * (3/10), dy := (jy - 1/2) * (3/10) } := by
  have hforage : scenarioOrg.forage [scenarioFood] = scenarioOrg := by
    unfold Organism.forage
    apply if_neg
    intro hcon
    have h5 := hcon.2.1
    norm_num [scenarioOrg] at h5
  have hhunt : scenarioOrg.hunt [scenarioOrg] = scenarioOrg := by
    unfold Organism.hunt
    apply if_neg
    intro hcon
    rcases hcon.1 with h6 | ⟨h6, _⟩ <;> simp [scenarioOrg] at h6
  have hflock : scenarioOrg.applyFlockingGuard [scenarioOrg] = scenarioOrg := by
    unfold Organism.applyFlockingGuard
    apply if_neg
    norm_num [scenarioOrg, scenarioDNA]
  unfold Organism.updateAI
  rw [hforage, hhunt, hflock]
  unfold Organism.steer
  simp [scenarioOrg]

theorem scenario_motion (a b : ℚ) :
    ({ scenarioOrg with dx := a, dy := b } : Organism).afterMotion []
      = { scenarioOrg with dx := a, dy := b, age := 1, x := 100 + a, y := 100 + b } := by
  unfold Organism.afterMotion
  simp [scenarioOrg]

theorem walls_free (o : Organism) (hr3 : 3 ≤ o.getRadius) (hr6 : o.getRadius ≤ 6)
    (hx1 : 50 ≤ o.x) (hx2 : o.x ≤ 150) (hy1 : 50 ≤ o.y) (hy2 : o.y ≤ 150) :
    o.afterWalls 800 600 = { o with dx := o.dx * (99/100), dy := o.dy * (99/100) } := by
  unfold Organism.afterWalls
  dsimp only
  have h1 : ¬ (o.x ≤ o.getRadius ∨ 800 - o.getRadius ≤ o.x) := by
    push_neg
    constructor <;> linarith
  rw [if_neg h1]
  have h2 : ¬ (o.y ≤ o.getRadius ∨ 600 - o.getRadius ≤ o.y) := by
    push_neg
    constructor <;> linarith
  rw [if_neg h2]
  rw [min_eq_right (by linarith), max_eq_right (by linarith),
    min_eq_right (by linarith), max_eq_right (by linarith)]

theorem scenario_radius (o : Organism) (hd : o.dna = scenarioDNA)
    (he : 0 ≤ o.energy) (hm : o.maxEnergy = 100) (hle : o.energy ≤ 100) :
    3 ≤ o.getRadius ∧ o.getRadius ≤ 6 := by
  unfold Organism.getRadius
  constructor
  · exact le_max_left _ _
  · apply max_le (by norm_num)
    have h1 : sqrtQ (o.energy / o.maxEnergy) ≤ 1 := by
      apply sqrtQ_le_one
      rw [hm, div_le_one (by norm_num)]
      exact hle
    have h0 : 0 ≤ sqrtQ (o.energy / o.maxEnergy) := sqrtQ_nonneg _
    rw [hd]
    show (4 + scenarioDNA.size * 4) * sqrtQ (o.energy / o.maxEnergy) ≤ 6
    have hsz : scenarioDNA.size = 1/2 := rfl
    rw [hsz]
    nlinarith

theorem scenario_walls (a b : ℚ) (ha1 : -(3/20) ≤ a) (ha2 : a ≤ 3/20)
    (hb1 : -(3/20) ≤ b) (hb2 : b ≤ 3/20) :
    ({ scenarioOrg with dx := a, dy := b, age := 1, x := 100 + a, y := 100 + b } : Organism).afterWalls 800 600
      = scenarioMoved a b := by
  have hrad := scenario_radius
    ({ scenarioOrg with dx := a, dy := b, age := 1, x := 100 + a, y := 100 + b } : Organism)
    rfl (by show (0:ℚ) ≤ 80; norm_num) rfl (by show (80:ℚ) ≤ 100; norm_num)
  rw [walls_free _ hrad.1 hrad.2 (show (50:ℚ) ≤ 100 + a by linarith)
    (show (100:ℚ) + a ≤ 150 by linarith) (show (50:ℚ) ≤ 100 + b by linarith)
    (show (100:ℚ) + b ≤ 150 by linarith)]
  simp [scenarioMoved, scenarioOrg]

theorem scenario_update (a b : ℚ) (ha1 : -(3/20) ≤ a) (ha2 : a ≤ 3/20)
    (hb1 : -(3/20) ≤ b) (hb2 : b ≤ 3/20) :
    ({ scenarioOrg with dx := a, dy := b } : Organism).update 800 600 []
      = { scenarioMoved a b with energy := 80 - (scenarioMoved a b).metabolicCost } ∧
    1/10 ≤ (scenarioMoved a b).metabolicCost ∧
    (scenarioMoved a b).metabolicCost ≤ 1/5 := by
  have hsq : (scenarioMoved a b).dx * (scenarioMoved a b).dx +
      (scenarioMoved a b).dy * (scenarioMoved a b).dy ≤ 1 := by
    show a * (99/100) * (a * (99/100)) + b * (99/100) * (b * (99/100)) ≤ 1
    nlinarith
  have hs0 : 0 ≤ sqrtQ ((scenarioMoved a b).dx * (scenarioMoved a b).dx +
      (scenarioMoved a b).dy * (scenarioMoved a b).dy) := sqrtQ_nonneg _
  have hs1 : sqrtQ ((scenarioMoved a b).dx * (scenarioMoved a b).dx +
      (scenarioMoved a b).dy * (scenarioMoved a b).dy) ≤ 1 := sqrtQ_le_one hsq
  have hmc : (scenarioMoved a b).metabolicCost
      = (1/10 + sqrtQ ((scenarioMoved a b).dx * (scenarioMoved a b).dx +
        (scenarioMoved a b).dy * (scenarioMoved a b).dy) * (1/10)) / 1 := rfl
  have hmc1 : 1/10 ≤ (scenarioMoved a b).metabolicCost := by
    rw [hmc, div_one]
    linarith
  have hmc2 : (scenarioMoved a b).metabolicCost ≤ 1/5 := by
    rw [hmc, div_one]
    linarith
  refine ⟨?_, hmc1, hmc2⟩
  unfold Organism.update
  dsimp only
  rw [scenario_motion, scenario_walls a b ha1 ha2 hb1 hb2]
  have hnspeed : ¬ ((scenarioMoved a b).dna.speed * 3 <
      sqrtQ ((scenarioMoved a b).dx * (scenarioMoved a b).dx +
        (scenarioMoved a b).dy * (scenarioMoved a b).dy)) := by
    intro hcon
    have hsp : (scenarioMoved a b).dna.speed = 1 := rfl
    rw [hsp] at hcon
    nlinarith
  rw [if_neg hnspeed]
  rw [show (scenarioMoved a b).energy = 80 from rfl]
  have hncd : ¬ (0 < ({ scenarioMoved a b with
      energy := 80 - (scenarioMoved a b).metabolicCost } : Organism).reproductionCooldown) := by
    simp [scenarioMoved, scenarioOrg]
  rw [if_neg hncd]

theorem scenario_feed (a b c : ℚ) (hc1 : 0 ≤ c) (hc2 : c ≤ 1/5)
    (ha1 : -(3/20) ≤ a) (ha2 : a ≤ 3/20) (hb1 : -(3/20) ≤ b) (hb2 : b ≤ 3/20) :
    feedPhase ({ scenarioMoved a b with energy := 80 - c }) [scenarioFood]
      = ({ scenarioMoved a b with energy := 100 }, []) := by
  have hfr : scenarioFood.radius = 17/4 := by norm_num [scenarioFood, Food.make]
  have hfe : scenarioFood.energy = 30 := by norm_num [scenarioFood, Food.make]
  have hfx : scenarioFood.x = 100 := rfl
  have hfy : scenarioFood.y = 100 := rfl
  have hdist : ({ scenarioMoved a b with energy := 80 - c } : Organism).distanceTo
      scenarioFood.x scenarioFood.y ≤ 1 := by
    unfold Organism.distanceTo
    rw [hfx, hfy]
    have hx : ({ scenarioMoved a b with energy := 80 - c } : Organism).x = 100 + a := rfl
    have hy : ({ scenarioMoved a b with energy := 80 - c } : Organism).y = 100 + b := rfl
    rw [hx, hy]
    have harg : (100 + a - 100) * (100 + a - 100) + (100 + b - 100) * (100 + b - 100)
        = a * a + b * b := by ring
    rw [harg]
    exact sqrtQ_le_one (by nlinarith)
  have hrad3 : 3 ≤ ({ scenarioMoved a b with energy := 80 - c } : Organism).getRadius :=
    le_max_left _ _
  have hcol : ({ scenarioMoved a b with energy := 80 - c } : Organism).collidesFood
      scenarioFood := by
    unfold Organism.collidesFood
    rw [if_neg (by rw [hfr]; norm_num)]
    rw [hfr]
    linarith
  unfold feedPhase
  rw [if_neg (by simp)]
  rw [show ([scenarioFood].length - 1) = 0 from rfl]
  unfold feedAux feedStep
  rw [show ([scenarioFood])[0]? = some scenarioFood from rfl]
  dsimp only
  rw [if_pos hcol]
  rw [if_pos (by simp [scenarioMoved, scenarioOrg])]
  rw [hfe]
  dsimp only [scenarioMoved, scenarioOrg]
  rw [min_eq_right (by linarith)]
  rfl

theorem scenario_tick (t : TickTape)
    (h1 : 0 ≤ (t.step 0).jx) (h2 : (t.step 0).jx < 1)
    (h3 : 0 ≤ (t.step 0).jy) (h4 : (t.step 0).jy < 1) :
    (tickOnce scenarioWorld t).organisms
      = [{ scenarioMoved (((t.step 0).jx - 1/2) * (3/10))
            (((t.step 0).jy - 1/2) * (3/10)) with energy := 100 }] ∧
    (tickOnce scenarioWorld t).food = [] ∧
    1/10 ≤ scenarioCost t ∧ scenarioCost t ≤ 1/5 := by
  set a := ((t.step 0).jx - 1/2) * (3/10) with ha
  set b := ((t.step 0).jy - 1/2) * (3/10) with hb
  have ha1 : -(3/20) ≤ a := by rw [ha]; nlinarith
  have ha2 : a ≤ 3/20 := by rw [ha]; nlinarith
  have hb1 : -(3/20) ≤ b := by rw [hb]; nlinarith
  have hb2 : b ≤ 3/20 := by rw [hb]; nlinarith
  have hAI : scenarioOrg.updateAI [scenarioOrg] [scenarioFood] (t.step 0).jx (t.step 0).jy
      = { scenarioOrg with dx := a, dy := b } := scenario_AI _ _
  obtain ⟨hupd, hc1, hc2⟩ := scenario_update a b ha1 ha2 hb1 hb2
  have hcost : scenarioCost t = (scenarioMoved a b).metabolicCost := by
    unfold scenarioCost
    rw [hAI, scenario_motion, scenario_walls a b ha1 ha2 hb1 hb2]
  have hfeed := scenario_feed a b ((scenarioMoved a b).metabolicCost)
    (le_trans (by norm_num) hc1) hc2 ha1 ha2 hb1 hb2
  have hpred : predationStep ({ scenarioMoved a b with energy := 100 })
      [{ scenarioMoved a b with energy := 80 - (scenarioMoved a b).metabolicCost }] 0
      = ({ scenarioMoved a b with energy := 100 },
        [{ scenarioMoved a b with energy := 80 - (scenarioMoved a b).metabolicCost }],
        false, 0) := by
    unfold predationStep
    rw [if_neg (by
      intro hcon
      rcases hcon with h | ⟨h, _⟩ <;> simp [scenarioMoved, scenarioOrg] at h)]
  have hrep : reproductionPhase 800 600 [] (t.step 0).mateRand (t.step 0).repro
      ({ scenarioMoved a b with energy := 100 })
      [{ scenarioMoved a b with energy := 80 - (scenarioMoved a b).metabolicCost }] 1
      = ({ scenarioMoved a b with energy := 100 },
        [{ scenarioMoved a b with energy := 80 - (scenarioMoved a b).metabolicCost }],
        0, 1) := by
    unfold reproductionPhase
    rw [if_neg (by
      intro hcon
      have h200 := hcon.2.2
      simp [scenarioMoved, scenarioOrg] at h200)]
  have hnd : ¬ ({ scenarioMoved a b with energy := 100 } : Organism).isDead := by
    intro hcon
    rcases hcon with h | h <;>
      norm_num [scenarioMoved, scenarioOrg, scenarioDNA] at h
  have hproc : processIndex 800 600 [] (t.step 0)
      ⟨[scenarioOrg], [scenarioFood], 0, 0, 1⟩ 0
      = (⟨[{ scenarioMoved a b with energy := 100 }], [], 0, 0, 1⟩, false) := by
    unfold processIndex
    rw [show ([scenarioOrg] : List Organism)[0]? = some scenarioOrg from rfl]
    dsimp only
    rw [hAI, hupd]
    rw [show ([scenarioOrg].set 0
        ({ scenarioMoved a b with energy := 80 - (scenarioMoved a b).metabolicCost }) : List Organism)
      = [{ scenarioMoved a b with energy := 80 - (scenarioMoved a b).metabolicCost }] from rfl]
    rw [hfeed]
    dsimp only
    rw [hpred]
    dsimp only
    rw [hrep]
    dsimp only
    unfold finishIndex
    rw [if_neg hnd]
    rfl
  have horg : orgLoop 800 600 [] t.step 1 0 ⟨[scenarioOrg], [scenarioFood], 0, 0, 1⟩ 0
      = (⟨[{ scenarioMoved a b with energy := 100 }], [], 0, 0, 1⟩, [0]) := by
    unfold orgLoop
    rw [show ([scenarioOrg] : List Organism)[0]? = some scenarioOrg from rfl]
    dsimp only
    rw [hproc]
    dsimp only
    rw [if_neg (by omega)]
    rfl
  have htick : tickOnce scenarioWorld t = { scenarioWorld with
      time := 1
      organisms := [{ scenarioMoved a b with energy := 100 }]
      food := []
      foodSpawnTimer := 1
      nextIdent := 1 } := by
    unfold tickOnce
    dsimp only [scenarioWorld]
    rw [if_neg (by simp)]
    rw [show ([scenarioOrg] : List Organism).length = 1 from rfl]
    rw [show (1 : ℕ) - 1 = 0 from rfl]
    rw [horg]
    dsimp only
    rw [if_neg (by intro hcon; omega)]
  rw [htick, hcost]
  exact ⟨rfl, rfl, hc1, hc2⟩

/-- C2 counterexample: in the exact scenario of the claim (one herbivore at
`(100,100)` with `energy = 80`, `maxEnergy = 100`, `speed = 1`, one food
item of energy 30 at the same spot), with concrete random draws, the tick
leaves the herbivore at energy exactly `min(80+30,100) = 100` and empties
the food list — but the claim's value `min(80+30,100) minus that tick's
metabolic cost` is *not* attained, because the metabolic cost (at least
`0.1`) is charged *before* feeding and the feeding clamp then restores the
energy to the cap. -/
theorem C2_feeding_scenario_counterexample :
    (1/10 : ℚ) ≤ scenarioCost scenarioTape ∧
    (tickOnce scenarioWorld scenarioTape).organisms.map Organism.energy = [(100 : ℚ)] ∧
    (tickOnce scenarioWorld scenarioTape).organisms.map Organism.energy
      ≠ [min (80 + 30 : ℚ) 100 - scenarioCost scenarioTape] ∧
    (tickOnce scenarioWorld scenarioTape).food = [] := by
  obtain ⟨horgs, hfood, hc1, hc2⟩ := scenario_tick scenarioTape
    (by norm_num [scenarioTape]) (by norm_num [scenarioTape])
    (by norm_num [scenarioTape]) (by norm_num [scenarioTape])
  refine ⟨hc1, ?_, ?_, hfood⟩
  · rw [horgs]
    simp
  · rw [horgs]
    rw [show (min (80 + 30 : ℚ) 100) = 100 from min_eq_right (by norm_num)]
    simp
    intro hcon
    linarith

/-- C2 (amended): in the scenario of the claim, for any jitter draws in
`[0,1)`, after one tick the herbivore's energy equals `min(80+30,100) =
100` — the metabolic cost is charged before feeding, and the feeding clamp
then restores the energy exactly to the cap, so the cost does not appear in
the final value — and the food list is empty. -/
theorem C2_feeding_scenario (t : TickTape)
    (h1 : 0 ≤ (t.step 0).jx) (h2 : (t.step 0).jx < 1)
    (h3 : 0 ≤ (t.step 0).jy) (h4 : (t.step 0).jy < 1) :
    ((tickOnce scenarioWorld t).organisms.map Organism.energy
      = [min (80 + 30 : ℚ) 100]) ∧
    (tickOnce scenarioWorld t).food = [] := by
  obtain ⟨horgs, hfood, hc1, hc2⟩ := scenario_tick t h1 h2 h3 h4
  refine ⟨?_, hfood⟩
  rw [horgs]
  rw [show (min (80 + 30 : ℚ) 100) = 100 from min_eq_right (by norm_num)]
  simp

/-- Closed instance of the amended C2 theorem at the concrete tape
(jitter draws 4/5 and 9/10). -/
theorem C2_feeding_scenario_witness :
    ((tickOnce scenarioWorld scenarioTape).organisms.map Organism.energy
      = [min (80 + 30 : ℚ) 100]) ∧
    (tickOnce scenarioWorld scenarioTape).food = [] :=
  C2_feeding_scenario scenarioTape (by norm_num [scenarioTape])
    (by norm_num [scenarioTape]) (by norm_num [scenarioTape])
    (by norm_num [scenarioTape])

end Primordial
